import Mathlib

/-!
The manifest loader of ketch: `internal/deploy/yaml.go`.

A shallow embedding of the manifest loader of `internal/deploy/yaml.go`
(`GetChangeSetFromYaml`, `applyDefaults`, `validate`) and theorems about it.

Conventions of the embedding:

* a Go pointer `*T` is an `Option T` (`nil` is `none`);
* a Go slice that the code tests against `nil` is an `Option (List T)`
  (`none` is the nil slice, `some []` an empty non-nil slice); a slice that is
  only ranged over, measured with `len`, or built by `append` from nil is a
  `List T` (such a slice is nil exactly when it is empty);
* a Go `map[string]V` is an association list with at most one entry per key;
* a Go `int` is an `Int` (no arithmetic is done on it here);
* a nil-pointer dereference is the outcome `Result.panic`.
-/

set_option linter.dupNamespace false
set_option linter.unnecessarySeqFocus false

namespace Deploy

/-! ## Manifest schema (`yaml.go`, lines 15-58) -/

/-- `type Port struct`. -/
structure Port where
  Protocol : String
  Port : Int
  TargetPort : Int
deriving DecidableEq, Repr

/-- `type Restart struct`. -/
structure Restart where
  Before : String
  After : String
deriving DecidableEq, Repr

/-- `type Hooks struct`. -/
structure Hooks where
  Restart : Restart
deriving DecidableEq, Repr

/-- `type Process struct`. -/
structure Process where
  Name : String
  Cmd : String
  Units : Option Int
  Ports : List Port
  Hooks : Hooks
deriving DecidableEq, Repr

/-- `type CName struct`. -/
structure CName where
  DNSName : String
deriving DecidableEq, Repr

/-- `type Application struct`: the decoded application.yaml. -/
structure Application where
  Version : Option String
  Type_ : Option String
  Name : Option String
  Image : Option String
  Framework : Option String
  Description : Option String
  Environment : Option (List String)
  RegistrySecret : Option String
  Builder : Option String
  BuildPacks : Option (List String)
  Processes : Option (List Process)
  CName : Option CName
  AppUnit : Option Int
deriving DecidableEq, Repr

/-- `const defaultVersion`. -/
def defaultVersion : String := "v1"

/-- `const defaultAppUnit`. -/
def defaultAppUnit : Int := 1

/-- `const typeApplication`. -/
def typeApplication : String := "Application"

/-- `const typeJob`. -/
def typeJob : String := "Job"

/-! ## Types of `ketchv1` used by the loader

Their declarations live in `internal/api/v1beta1`; the fields below are the
ones `yaml.go` and `yaml_test.go` use. -/

/-- `ketchv1.Env`. -/
structure Env where
  Name : String
  Value : String
deriving DecidableEq, Repr

/-- `ketchv1.ProcessSpec`. -/
structure ProcessSpec where
  Name : String
  Cmd : List String
  Units : Option Int
  Env : List Env
deriving DecidableEq, Repr

/-- `ketchv1.KetchYamlProcessPortConfig`. -/
structure KetchYamlProcessPortConfig where
  Protocol : String
  Port : Int
  TargetPort : Int
deriving DecidableEq, Repr

/-- `ketchv1.KetchYamlProcessConfig`. -/
structure KetchYamlProcessConfig where
  Ports : List KetchYamlProcessPortConfig
deriving DecidableEq, Repr

/-- `ketchv1.KetchYamlRestartHooks`. -/
structure KetchYamlRestartHooks where
  Before : List String
  After : List String
deriving DecidableEq, Repr

/-- `ketchv1.KetchYamlHooks`. -/
structure KetchYamlHooks where
  Restart : KetchYamlRestartHooks
deriving DecidableEq, Repr

/-- A Go `map[string]V`: an association list, kept with at most one entry per
key by `GoMap.set`. -/
abbrev GoMap (V : Type) := List (String × V)

/-- `make(map[string]V)`. -/
def GoMap.empty {V : Type} : GoMap V := []

/-- `m[k] = v`: the entry for `k`, if any, is replaced. -/
def GoMap.set {V : Type} (m : GoMap V) (k : String) (v : V) : GoMap V :=
  (k, v) :: m.filter (fun e => decide (e.1 ≠ k))

/-- `v, ok := m[k]`. -/
def GoMap.get? {V : Type} (m : GoMap V) (k : String) : Option V :=
  (m.find? (fun e => decide (e.1 = k))).map Prod.snd

/-- `ketchv1.KetchYamlKubernetesConfig`. -/
structure KetchYamlKubernetesConfig where
  Processes : GoMap KetchYamlProcessConfig
deriving DecidableEq, Repr

/-- `ketchv1.KetchYamlData`. -/
structure KetchYamlData where
  Hooks : Option KetchYamlHooks
  Kubernetes : Option KetchYamlKubernetesConfig
deriving DecidableEq, Repr

/-- The zero value `var ketchYamlData ketchv1.KetchYamlData`. -/
def KetchYamlData.zero : KetchYamlData := { Hooks := none, Kubernetes := none }

/-! ## The error taxonomy (`validations.go`, not under `src/`) -/

/-- Modelled from the spec: the three error kinds of the error taxonomy
(`validations.go`, missing here): Missing, InvalidValue, InvalidUsage. -/
inductive ErrorKind where
  | missing : ErrorKind
  | invalidValue : ErrorKind
  | invalidUsage : ErrorKind
deriving DecidableEq, Repr

/-- Modelled from the spec: an error seen by the classification predicates of
`validations.go` (missing here): an error of one of the three kinds built
from a message, an error of no kind, or an error wrapped with added context
(`fmt.Errorf("some error %w", err)`), which keeps its cause. -/
inductive ClassifiedError where
  | classified (kind : ErrorKind) (msg : String) : ClassifiedError
  | unclassified (msg : String) : ClassifiedError
  | wrapped (context : String) (cause : ClassifiedError) : ClassifiedError
deriving DecidableEq, Repr

/-- Modelled from the spec: `newMissingError(msg)` of `validations.go`,
missing here; "each kind is constructed from a message string". -/
def newMissingError (msg : String) : ClassifiedError :=
  ClassifiedError.classified ErrorKind.missing msg

/-- Modelled from the spec: `newInvalidValueError(msg)` of `validations.go`,
missing here. -/
def newInvalidValueError (msg : String) : ClassifiedError :=
  ClassifiedError.classified ErrorKind.invalidValue msg

/-- Modelled from the spec: `newInvalidUsageError(msg)` of `validations.go`,
missing here. -/
def newInvalidUsageError (msg : String) : ClassifiedError :=
  ClassifiedError.classified ErrorKind.invalidUsage msg

/-- Modelled from the spec: the walk of the classification predicates of
`validations.go` (missing here), "unwrapping the causal chain until a terminal
classified error or the chain ends": the kind of the terminal error, if it
has one. -/
def ClassifiedError.terminalKind : ClassifiedError → Option ErrorKind
  | ClassifiedError.classified kind _ => some kind
  | ClassifiedError.unclassified _ => none
  | ClassifiedError.wrapped _ cause => cause.terminalKind

/-- Modelled from the spec: `isMissing(err)` of `validations.go`, missing here:
whether the causal chain of `err` ends in a Missing error; `none` is the nil
error. -/
def isMissing (err : Option ClassifiedError) : Bool :=
  match err with
  | none => false
  | some e => decide (e.terminalKind = some ErrorKind.missing)

/-- Modelled from the spec: the walk of `isValid` over a non-nil error: false at
an error of any of the three kinds and, `isValid` being "true only when error
is nil", false at the end of a chain with no kind as well. -/
def ClassifiedError.valid : ClassifiedError → Bool
  | ClassifiedError.classified _ _ => false
  | ClassifiedError.unclassified _ => false
  | ClassifiedError.wrapped _ cause => cause.valid

/-- Modelled from the spec: `isValid(err)` of `validations.go`, missing here,
"returning false for any of the three kinds", "true only when error is nil". -/
def isValid (err : Option ClassifiedError) : Bool :=
  match err with
  | none => true
  | some e => e.valid

/-- Wrap `err` with added context once per element of `contexts`, the first
element outermost: repeated `fmt.Errorf(context + "%w", err)`. -/
def wrapAll (contexts : List String) (err : ClassifiedError) : ClassifiedError :=
  contexts.foldr ClassifiedError.wrapped err

/-- Modelled from the spec: `err.Error()` for an error of the taxonomy of
`validations.go` (missing here): the message a kind was "constructed from",
with the added context of each wrapping (`fmt.Errorf(context + "%w", err)`)
in front. -/
def ClassifiedError.message : ClassifiedError → String
  | ClassifiedError.classified _ msg => msg
  | ClassifiedError.unclassified msg => msg
  | ClassifiedError.wrapped context cause => context ++ cause.message

/-! ## Errors, options and the change set -/

/-- A Go `error` value that the loader returns. `message msg` is an error
known here through its message only: what `errors.New` of `internal/errors`
builds, and what `os.ReadFile` and `yaml.Unmarshal` may return. `taxonomy e`
is an error of the taxonomy of `validations.go`, with its kind and its causal
chain, as the spec has `utils.MakeEnvironments` return. The two are different
values: an error rebuilt from the message of a `taxonomy` error is not that
error. -/
inductive GoError where
  | message (msg : String) : GoError
  | taxonomy (e : ClassifiedError) : GoError
deriving DecidableEq, Repr

/-- `err.Error()`. -/
def GoError.msg : GoError → String
  | GoError.message msg => msg
  | GoError.taxonomy e => e.message

/-- `errors.New(msg)` of `internal/errors`, called by `validate`. -/
def errorsNew (msg : String) : GoError := GoError.message msg

/-- `Options`: the fields `GetChangeSetFromYaml` reads. -/
structure Options where
  Timeout : String
  Wait : Bool
  AppSourcePath : String
deriving DecidableEq, Repr

/-- `ChangeSet`: the fields `yaml.go` assigns or reads. -/
structure ChangeSet where
  appName : String
  appVersion : Option String
  appType : Option String
  image : Option String
  description : Option String
  framework : Option String
  dockerRegistrySecret : Option String
  builder : Option String
  appUnit : Option Int
  timeout : Option String
  wait : Option Bool
  sourcePath : Option String
  cname : Option (List String)
  envs : Option (List String)
  buildPacks : Option (List String)
  processes : Option (List ProcessSpec)
  ketchYamlData : Option KetchYamlData
  yamlStrictDecoding : Bool
deriving DecidableEq, Repr

/-- What a call of `GetChangeSetFromYaml` does: it panics (nil-pointer
dereference) or returns the pair `(*ChangeSet, error)`. -/
inductive Result where
  | panic : Result
  | ret (cs : Option ChangeSet) (err : Option GoError) : Result
deriving DecidableEq, Repr

/-! ## `strings.Split` -/

/-- Cut a character sequence at every occurrence of `sep`: the pieces between
consecutive separators, in order (the loop of `genSplit` in Go's `strings`
package, for a one-character separator and no limit on the number of
pieces). -/
def splitChars (sep : Char) : List Char → List (List Char)
  | [] => [[]]
  | c :: cs =>
    if c = sep then [] :: splitChars sep cs
    else
      match splitChars sep cs with
      | [] => [[c]]
      | t :: ts => (c :: t) :: ts

/-- `strings.Split(s, sep)` for a separator `sep` of one character, as in
`strings.Split(process.Cmd, " ")`. -/
def stringsSplit (s : String) (sep : Char) : List String :=
  (splitChars sep s.data).map String.mk

/-- `strings.Join(elems, sep)` for a separator of one character. -/
def stringsJoin (elems : List String) (sep : Char) : String :=
  String.mk (List.intercalate [sep] (elems.map String.data))

/-! ## `applyDefaults` and `validate` (`yaml.go`, lines 171-209) -/

/-- `func (c *ChangeSet) applyDefaults()`: the change set after the call. -/
def ChangeSet.applyDefaults (c : ChangeSet) : ChangeSet :=
  let c := if c.appVersion = none then { c with appVersion := some defaultVersion } else c
  let c := if c.appType = none then { c with appType := some typeApplication } else c
  let c := { c with yamlStrictDecoding := true }
  let c := if c.appUnit = none then { c with appUnit := some defaultAppUnit } else c
  match c.processes with
  | none => c
  | some ps =>
    let ps := ps.map (fun p => if p.Units = none then { p with Units := c.appUnit } else p)
    { c with processes := some ps }

/-- `func (c *ChangeSet) validate() error`: `none` is the nil error. -/
def ChangeSet.validate (c : ChangeSet) : Option GoError :=
  if c.framework = none then
    some (errorsNew "missing required field framework")
  else if c.image = none then
    some (errorsNew "missing required field image")
  else if c.appName = "" then
    some (errorsNew "missing required field name")
  else if c.sourcePath = none ∧ c.processes ≠ none then
    some (errorsNew "running defined processes require a sourcePath")
  else
    none

/-! ## `GetChangeSetFromYaml` (`yaml.go`, lines 67-169) -/

/-- The variables the loop over `application.Processes` updates. -/
structure LoopState where
  processes : List ProcessSpec
  beforeHooks : List String
  afterHooks : List String
  ketchYamlProcessConfig : GoMap KetchYamlProcessConfig
deriving DecidableEq, Repr

/-- The inner loop `for _, port := range process.Ports`. -/
def portConfigs (ports : List Port) : List KetchYamlProcessPortConfig :=
  ports.foldl
    (fun acc port =>
      acc ++ [{ Protocol := port.Protocol, Port := port.Port, TargetPort := port.TargetPort }])
    []

/-- One iteration of `for _, process := range application.Processes`. -/
def processStep (envs : List Env) (st : LoopState) (process : Process) : LoopState :=
  let processes := st.processes ++
    [{ Name := process.Name, Cmd := stringsSplit process.Cmd ' ',
       Units := process.Units, Env := envs }]
  let beforeHooks :=
    if process.Hooks.Restart.Before ≠ "" then st.beforeHooks ++ [process.Hooks.Restart.Before]
    else st.beforeHooks
  let afterHooks :=
    if process.Hooks.Restart.After ≠ "" then st.afterHooks ++ [process.Hooks.Restart.After]
    else st.afterHooks
  let ports := portConfigs process.Ports
  let ketchYamlProcessConfig :=
    if process.Ports.length > 0 then
      st.ketchYamlProcessConfig.set process.Name { Ports := ports }
    else st.ketchYamlProcessConfig
  { processes := processes, beforeHooks := beforeHooks, afterHooks := afterHooks,
    ketchYamlProcessConfig := ketchYamlProcessConfig }

/-- The whole loop, started from `processes` (nil), nil hook slices and an
empty map. -/
def processLoop (envs : List Env) (ps : List Process) : LoopState :=
  ps.foldl (processStep envs)
    { processes := [], beforeHooks := [], afterHooks := [],
      ketchYamlProcessConfig := GoMap.empty }

/-- The block `if application.Processes != nil`: the values of `processes`
and `ketchYamlData` after it. -/
def mapProcesses (envs : List Env) (application : Application) :
    List ProcessSpec × KetchYamlData :=
  match application.Processes with
  | none => ([], KetchYamlData.zero)
  | some ps =>
    let st := processLoop envs ps
    (st.processes,
      { Hooks := some { Restart := { Before := st.beforeHooks, After := st.afterHooks } },
        Kubernetes := some { Processes := st.ketchYamlProcessConfig } })

/-- The statements from the `ChangeSet` literal to `if len(processes) > 0`
(lines 138-166): the change set built from the decoded `application`, whose
name is `name`, before defaulting. -/
def buildChangeSet (o : Options) (application : Application) (name : String)
    (processes : List ProcessSpec) (ketchYamlData : KetchYamlData) : ChangeSet :=
  let c : ChangeSet :=
    { appName := name
      appVersion := application.Version
      appType := application.Type_
      image := application.Image
      description := application.Description
      framework := application.Framework
      dockerRegistrySecret := application.RegistrySecret
      builder := application.Builder
      appUnit := application.AppUnit
      timeout := some o.Timeout
      wait := some o.Wait
      sourcePath := none
      cname := none
      envs := none
      buildPacks := none
      processes := none
      ketchYamlData := none
      yamlStrictDecoding := false }
  let c := if o.AppSourcePath ≠ "" then { c with sourcePath := some o.AppSourcePath } else c
  let c :=
    match application.CName with
    | some cn => { c with cname := some [cn.DNSName] }
    | none => c
  let c :=
    match application.Environment with
    | some environment => { c with envs := some environment }
    | none => c
  let c :=
    match application.BuildPacks with
    | some buildPacks => { c with buildPacks := some buildPacks }
    | none => c
  if processes.length > 0 then
    { c with processes := some processes, ketchYamlData := some ketchYamlData }
  else c

/-- The block `if application.Environment != nil` (lines 80-86): the value of
`envs`, or the error of `utils.MakeEnvironments`. -/
def parseEnvironment (MakeEnvironments : List String → Except GoError (List Env))
    (application : Application) : Except GoError (List Env) :=
  match application.Environment with
  | none => Except.ok []
  | some environment => MakeEnvironments environment

/-- The statements of `GetChangeSetFromYaml` after the two early returns, from
the decoded `application` on. `MakeEnvironments` is `utils.MakeEnvironments`;
`*application.Name` panics when the name is absent. -/
def changeSetFromApplication (MakeEnvironments : List String → Except GoError (List Env))
    (o : Options) (application : Application) : Result :=
  match parseEnvironment MakeEnvironments application with
  | Except.error err => Result.ret none (some err)
  | Except.ok envs =>
    let mapped := mapProcesses envs application
    match application.Name with
    | none => Result.panic
    | some name =>
      let c := (buildChangeSet o application name mapped.1 mapped.2).applyDefaults
      Result.ret (some c) c.validate

/-- `func (o *Options) GetChangeSetFromYaml(filename string) (*ChangeSet, error)`,
for a non-nil receiver `o`. `readFile` is `os.ReadFile`, `unmarshal` is
`yaml.Unmarshal` into a fresh `Application`, `MakeEnvironments` is
`utils.MakeEnvironments`. -/
def GetChangeSetFromYaml (readFile : String → Except GoError String)
    (unmarshal : String → Except GoError Application)
    (MakeEnvironments : List String → Except GoError (List Env))
    (o : Options) (filename : String) : Result :=
  match readFile filename with
  | Except.error err => Result.ret none (some err)
  | Except.ok b =>
    match unmarshal b with
    | Except.error err => Result.ret none (some err)
    | Except.ok application => changeSetFromApplication MakeEnvironments o application

/-! ## Sample inputs (from `yaml_test.go`) -/

/-- An `Application` with every field absent. -/
def emptyApplication : Application :=
  { Version := none, Type_ := none, Name := none, Image := none, Framework := none,
    Description := none, Environment := none, RegistrySecret := none, Builder := none,
    BuildPacks := none, Processes := none, CName := none, AppUnit := none }

/-- The decoded manifest of the test "success - defaults". -/
def sampleDefaults : Application :=
  { emptyApplication with
    Name := some "test", Framework := some "myframework",
    Image := some "gcr.io/kubernetes/sample-app:latest" }

/-- A process with only a name and a command. -/
def plainProcess (name cmd : String) (units : Option Int) : Process :=
  { Name := name, Cmd := cmd, Units := units, Ports := [],
    Hooks := { Restart := { Before := "", After := "" } } }

/-- The decoded manifest of the test "success - use appUnits as process.units
when units are not specified". -/
def sampleUnits : Application :=
  { sampleDefaults with
    Version := some "v1", Type_ := some "Application", Description := some "a test",
    Builder := some "heroku/buildpacks:20", AppUnit := some 2,
    Processes := some [plainProcess "web" "python app.py" (some 1),
                       plainProcess "worker" "python app.py" none] }

/-- The options `&Options\x7b\x7d`. -/
def emptyOptions : Options := { Timeout := "", Wait := false, AppSourcePath := "" }

/-- The options `&Options\x7bAppSourcePath: "."\x7d`. -/
def dotOptions : Options := { Timeout := "", Wait := false, AppSourcePath := "." }

/-- A file system holding one file, whatever its name, with content `b`. -/
def readFileConst (b : String) : String → Except GoError String := fun _ => Except.ok b

/-- A decoder that yields `application` for every document. -/
def unmarshalConst (application : Application) : String → Except GoError Application :=
  fun _ => Except.ok application

/-- An environment parser that accepts every list and yields no pair; the
sample manifests have no environment. -/
def makeEnvironmentsNone : List String → Except GoError (List Env) := fun _ => Except.ok []

/-- Run the loader on a decoded manifest with the constant collaborators. -/
def loadSample (o : Options) (application : Application) : Result :=
  GetChangeSetFromYaml (readFileConst "") (unmarshalConst application) makeEnvironmentsNone o
    "application.yaml"

/-- A manifest with framework and image but no `name` key. -/
def sampleNoName : Application :=
  { emptyApplication with
    Framework := some "myframework", Image := some "gcr.io/kubernetes/sample-app:latest" }

/-- The decoded manifest of the test "validation error - framework". -/
def sampleNoFramework : Application :=
  { emptyApplication with
    Name := some "test", Image := some "gcr.io/kubernetes/sample-app:latest" }

/-- The decoded manifest of the test "success", without its `environment`
and `buildPacks` keys: two processes with ports, the first with restart
hooks. -/
def sampleHooks : Application :=
  { sampleDefaults with
    Version := some "v1", Type_ := some "Application", Description := some "a test",
    Builder := some "heroku/buildpacks:20", AppUnit := some 2,
    CName := some { DNSName := "test.10.10.10.20" },
    Processes := some
      [{ Name := "web", Cmd := "python app.py", Units := some 1,
         Ports := [{ Protocol := "TCP", Port := 8888, TargetPort := 6666 }],
         Hooks := { Restart := { Before := "pwd", After := "echo \"test\"" } } },
       { Name := "worker", Cmd := "python app.py", Units := some 1,
         Ports := [{ Protocol := "TCP", Port := 8888, TargetPort := 6666 }],
         Hooks := { Restart := { Before := "", After := "" } } }] }

/-- The manifest of "success - defaults" with two processes whose commands
have a doubled space and a tab. -/
def sampleSpacing : Application :=
  { sampleDefaults with
    Processes := some [plainProcess "web" "python  app.py" none,
                       plainProcess "worker" "python\tapp.py" none] }

/-- A change set with name "test" and every optional field absent. -/
def bareChangeSet : ChangeSet :=
  { appName := "test", appVersion := none, appType := none, image := none,
    description := none, framework := none, dockerRegistrySecret := none, builder := none,
    appUnit := none, timeout := none, wait := none, sourcePath := none, cname := none,
    envs := none, buildPacks := none, processes := none, ketchYamlData := none,
    yamlStrictDecoding := false }

/-- A process spec with only a name and a unit count. -/
def bareSpec (name : String) (units : Option Int) : ProcessSpec :=
  { Name := name, Cmd := [], Units := units, Env := [] }

/-! ## The environment parser (not under `src/`) -/

/-- Modelled from the spec: one entry of the environment, which "must match
`NAME=VALUE`"; cut at its first `=`, with no pair for an entry without `=`.
The parser `utils.MakeEnvironments` lives in `internal/utils`, which is
missing here. -/
def parseEnvEntry (entry : String) : Option Env :=
  match entry.data.span (fun ch => decide (ch ≠ '=')) with
  | (_, []) => none
  | (name, _ :: value) => some { Name := String.mk name, Value := String.mk value }

/-- Modelled from the spec: the error of the environment parser for an entry
that does not match `NAME=VALUE`: "an InvalidValue error containing the
message" "env variables should have NAME=VALUE format". -/
def envFormatError : GoError :=
  GoError.taxonomy (newInvalidValueError "env variables should have NAME=VALUE format")

/-- Modelled from the spec: `utils.MakeEnvironments` of `internal/utils`,
missing here, which "splits `NAME=VALUE` tokens, fails with a format error
otherwise": the InvalidValue error `envFormatError`. -/
def makeEnvironmentsSpec : List String → Except GoError (List Env)
  | [] => Except.ok []
  | entry :: rest =>
    match parseEnvEntry entry with
    | none => Except.error envFormatError
    | some env =>
      match makeEnvironmentsSpec rest with
      | Except.error err => Except.error err
      | Except.ok envs => Except.ok (env :: envs)

/-! ## More sample inputs -/

/-- The decoded manifest of the test "success": `sampleHooks` with its
`environment` and `buildPacks` keys. -/
def sampleFull : Application :=
  { sampleHooks with
    Environment := some ["PORT=6666", "FOO=bar"], BuildPacks := some ["test-buildpack"] }

/-- The decoded manifest of the test "error - malformed envvar". -/
def sampleBadEnv : Application :=
  { sampleDefaults with Environment := some ["bad:variable"] }

/-- The malformed environment in a manifest with no name, framework or image
and with a process. -/
def sampleBadEnvOnly : Application :=
  { emptyApplication with
    Environment := some ["bad:variable"],
    Processes := some [plainProcess "web" "python app.py" none] }

/-- The manifest of "validation error - processes without sourcePath" with an
empty name. -/
def sampleEmptyName : Application :=
  { sampleDefaults with
    Name := some "", Processes := some [plainProcess "web" "python app.py" none] }

/-- The decoded manifest of the test "validation error - processes without
sourcePath". -/
def sampleNoSourcePath : Application :=
  { sampleDefaults with Processes := some [plainProcess "web" "python app.py" none] }

/-- A process with a name, ports and a `before` hook. -/
def portProcess (name : String) (ports : List Port) (before : String) : Process :=
  { Name := name, Cmd := "python app.py", Units := none, Ports := ports,
    Hooks := { Restart := { Before := before, After := "" } } }

/-- Three processes named "web": ports 8888, then ports 9999, then no port. -/
def sampleSharedName : Application :=
  { sampleDefaults with
    Processes := some
      [portProcess "web" [{ Protocol := "TCP", Port := 8888, TargetPort := 6666 }] "one",
       portProcess "web" [{ Protocol := "UDP", Port := 9999, TargetPort := 7777 }] "two",
       portProcess "web" [] "three"] }

/-- Two processes whose commands are the empty string and a string with a
leading, a doubled and a trailing space. -/
def sampleEmptyCmd : Application :=
  { sampleDefaults with
    Processes := some [plainProcess "web" "" none, plainProcess "worker" " a  b " none] }

/-- Run the loader on a decoded manifest with the environment parser modelled
from the spec. -/
def loadSampleEnv (o : Options) (application : Application) : Result :=
  GetChangeSetFromYaml (readFileConst "") (unmarshalConst application) makeEnvironmentsSpec o
    "application.yaml"

end Deploy

namespace Deploy

/-! ## The validator -/

/-- The four rules of `validate`, unfolded one `if` at a time. -/
theorem validate_unfold (c : ChangeSet) :
    c.validate =
      if c.framework = none then some (errorsNew "missing required field framework")
      else if c.image = none then some (errorsNew "missing required field image")
      else if c.appName = "" then some (errorsNew "missing required field name")
      else if c.sourcePath = none ∧ c.processes ≠ none then
        some (errorsNew "running defined processes require a sourcePath")
      else none := rfl

/-- C1: `validate` returns the error of the first violated rule, in the order
framework unset, image unset, name empty, processes declared without a source
path; with no rule violated it returns no error. -/
theorem C1_validate_first_violated_rule (c : ChangeSet) :
    (c.framework = none →
      c.validate = some (errorsNew "missing required field framework")) ∧
    (c.framework ≠ none → c.image = none →
      c.validate = some (errorsNew "missing required field image")) ∧
    (c.framework ≠ none → c.image ≠ none → c.appName = "" →
      c.validate = some (errorsNew "missing required field name")) ∧
    (c.framework ≠ none → c.image ≠ none → c.appName ≠ "" →
      c.sourcePath = none → c.processes ≠ none →
      c.validate = some (errorsNew "running defined processes require a sourcePath")) ∧
    (c.framework ≠ none → c.image ≠ none → c.appName ≠ "" →
      (c.sourcePath ≠ none ∨ c.processes = none) → c.validate = none) := by
  rw [validate_unfold]
  refine ⟨?_, ?_, ?_, ?_, ?_⟩
  · intro h; simp [h]
  · intro h1 h2; simp [h1, h2]
  · intro h1 h2 h3; simp [h1, h2, h3]
  · intro h1 h2 h3 h4 h5; simp [h1, h2, h3, h4, h5]
  · intro h1 h2 h3 h4
    rcases h4 with h4 | h4 <;> simp [h1, h2, h3, h4]

/-- Witness for C1: with framework and image both unset the framework message
is returned; with image unset and processes without a source path the image
message is returned. -/
theorem C1_validate_first_violated_rule_witness :
    bareChangeSet.validate = some (errorsNew "missing required field framework") ∧
    ({ bareChangeSet with framework := some "f", processes := some [] } : ChangeSet).validate
      = some (errorsNew "missing required field image") :=
  ⟨(C1_validate_first_violated_rule bareChangeSet).1 rfl,
   (C1_validate_first_violated_rule _).2.1 (by decide) rfl⟩

/-! ## Shape of the loader's results -/

/-- A failed file read is returned as it is. -/
theorem GetChangeSetFromYaml_read_error
    {rf : String → Except GoError String} {um : String → Except GoError Application}
    {me : List String → Except GoError (List Env)} {o : Options} {fn : String} {e : GoError}
    (h : rf fn = Except.error e) :
    GetChangeSetFromYaml rf um me o fn = Result.ret none (some e) := by
  simp [GetChangeSetFromYaml, h]

/-- A failed decoding is returned as it is. -/
theorem GetChangeSetFromYaml_decode_error
    {rf : String → Except GoError String} {um : String → Except GoError Application}
    {me : List String → Except GoError (List Env)} {o : Options} {fn b : String} {e : GoError}
    (hb : rf fn = Except.ok b) (h : um b = Except.error e) :
    GetChangeSetFromYaml rf um me o fn = Result.ret none (some e) := by
  simp [GetChangeSetFromYaml, hb, h]

/-- After a successful read and decoding the loader continues with the decoded
manifest. -/
theorem GetChangeSetFromYaml_decoded
    {rf : String → Except GoError String} {um : String → Except GoError Application}
    {me : List String → Except GoError (List Env)} {o : Options} {fn b : String}
    {app : Application}
    (hb : rf fn = Except.ok b) (h : um b = Except.ok app) :
    GetChangeSetFromYaml rf um me o fn = changeSetFromApplication me o app := by
  simp [GetChangeSetFromYaml, hb, h]

/-- A failed environment parse is returned as it is, with no change set. -/
theorem changeSetFromApplication_env_error
    {me : List String → Except GoError (List Env)} {o : Options} {app : Application}
    {e : GoError} (h : parseEnvironment me app = Except.error e) :
    changeSetFromApplication me o app = Result.ret none (some e) := by
  simp [changeSetFromApplication, h]

/-- With a parsed environment and no name, `*application.Name` panics. -/
theorem changeSetFromApplication_no_name
    {me : List String → Except GoError (List Env)} {o : Options} {app : Application}
    {envs : List Env} (h : parseEnvironment me app = Except.ok envs)
    (hn : app.Name = none) :
    changeSetFromApplication me o app = Result.panic := by
  simp [changeSetFromApplication, h, hn]

/-- With a parsed environment and a name, the defaulted change set is returned
with its validation verdict. -/
theorem changeSetFromApplication_named
    {me : List String → Except GoError (List Env)} {o : Options} {app : Application}
    {envs : List Env} {name : String} (h : parseEnvironment me app = Except.ok envs)
    (hn : app.Name = some name) :
    changeSetFromApplication me o app =
      Result.ret
        (some (buildChangeSet o app name (mapProcesses envs app).1
          (mapProcesses envs app).2).applyDefaults)
        (buildChangeSet o app name (mapProcesses envs app).1
          (mapProcesses envs app).2).applyDefaults.validate := by
  simp [changeSetFromApplication, h, hn]

/-- A change set returned by the part after decoding comes from a manifest
with a name and a parsed environment, and is returned with its own
validation verdict. -/
theorem changeSetFromApplication_ret_some
    {me : List String → Except GoError (List Env)} {o : Options} {app : Application}
    {c : ChangeSet} {e : Option GoError}
    (h : changeSetFromApplication me o app = Result.ret (some c) e) :
    ∃ envs name, parseEnvironment me app = Except.ok envs ∧ app.Name = some name ∧
      c = (buildChangeSet o app name (mapProcesses envs app).1
            (mapProcesses envs app).2).applyDefaults ∧
      e = c.validate := by
  unfold changeSetFromApplication at h
  cases henv : parseEnvironment me app with
  | error err => rw [henv] at h; simp at h
  | ok envs =>
    rw [henv] at h
    cases hname : app.Name with
    | none => rw [hname] at h; simp at h
    | some name =>
      rw [hname] at h
      simp only [Result.ret.injEq, Option.some.injEq] at h
      exact ⟨envs, name, rfl, rfl, h.1.symm, by rw [← h.2, ← h.1]⟩

/-- A change set returned by `GetChangeSetFromYaml` comes from a file that was
read and decoded. -/
theorem GetChangeSetFromYaml_ret_some
    {rf : String → Except GoError String} {um : String → Except GoError Application}
    {me : List String → Except GoError (List Env)} {o : Options} {fn : String}
    {c : ChangeSet} {e : Option GoError}
    (h : GetChangeSetFromYaml rf um me o fn = Result.ret (some c) e) :
    ∃ b app, rf fn = Except.ok b ∧ um b = Except.ok app ∧
      changeSetFromApplication me o app = Result.ret (some c) e := by
  unfold GetChangeSetFromYaml at h
  cases hb : rf fn with
  | error err => simp [hb] at h
  | ok b =>
    simp only [hb] at h
    cases happ : um b with
    | error err => simp [happ] at h
    | ok app =>
      simp only [happ] at h
      exact ⟨b, app, rfl, happ, h⟩

/-- `validate` succeeds exactly when no rule is violated. -/
theorem validate_eq_none_iff (c : ChangeSet) :
    c.validate = none ↔
      c.framework ≠ none ∧ c.image ≠ none ∧ c.appName ≠ "" ∧
        (c.processes = none ∨ c.sourcePath ≠ none) := by
  rw [validate_unfold]
  by_cases h1 : c.framework = none
  · simp [h1]
  by_cases h2 : c.image = none
  · simp [h1, h2]
  by_cases h3 : c.appName = ""
  · simp [h1, h2, h3]
  by_cases h4 : c.sourcePath = none
  · by_cases h5 : c.processes = none <;> simp [h1, h2, h3, h4, h5]
  · simp [h1, h2, h3, h4]

/-- C2: `validate` succeeds if and only if framework and image are set, the
name is non-empty and a source path is set whenever a process list is present;
so a change set that `GetChangeSetFromYaml` returns with no error has all
of these. -/
theorem C2_validate_success_iff :
    (∀ c : ChangeSet, c.validate = none ↔
      c.framework ≠ none ∧ c.image ≠ none ∧ c.appName ≠ "" ∧
        (c.processes = none ∨ c.sourcePath ≠ none)) ∧
    (∀ (rf : String → Except GoError String) (um : String → Except GoError Application)
       (me : List String → Except GoError (List Env)) (o : Options) (fn : String)
       (c : ChangeSet),
      GetChangeSetFromYaml rf um me o fn = Result.ret (some c) none →
        c.appName ≠ "" ∧ c.framework ≠ none ∧ c.image ≠ none ∧
          (c.processes ≠ none → c.sourcePath ≠ none)) := by
  refine ⟨validate_eq_none_iff, ?_⟩
  intro rf um me o fn c h
  obtain ⟨b, app, -, -, h⟩ := GetChangeSetFromYaml_ret_some h
  obtain ⟨envs, name, -, -, -, hv⟩ := changeSetFromApplication_ret_some h
  obtain ⟨h1, h2, h3, h4⟩ := (validate_eq_none_iff c).1 hv.symm
  refine ⟨h3, h1, h2, fun hp => ?_⟩
  rcases h4 with h4 | h4
  · exact absurd h4 hp
  · exact h4

/-- Witness for C2: the test manifest with two processes and source path "."
loads with no error, and the returned change set has a name, a framework, an
image, a process list and a source path. -/
theorem C2_validate_success_iff_witness :
    ∃ c, loadSample dotOptions sampleUnits = Result.ret (some c) none ∧
      c.processes ≠ none ∧
      (c.appName ≠ "" ∧ c.framework ≠ none ∧ c.image ≠ none ∧
        (c.processes ≠ none → c.sourcePath ≠ none)) :=
  ⟨((buildChangeSet dotOptions sampleUnits "test" (mapProcesses [] sampleUnits).1
      (mapProcesses [] sampleUnits).2).applyDefaults), rfl, by decide,
    C2_validate_success_iff.2 (readFileConst "") (unmarshalConst sampleUnits)
      makeEnvironmentsNone dotOptions "application.yaml" _ rfl⟩

/-! ## The loader's two results -/

/-- C3: on a manifest with framework and image but no `name` key the loader
dereferences the nil `application.Name` and panics instead of returning the
error of the name rule; with the name present and empty it returns
"missing required field name". -/
theorem C3_absent_name_panics :
    loadSample emptyOptions sampleNoName = Result.panic ∧
    ∃ c, loadSample emptyOptions { sampleNoName with Name := some "" }
      = Result.ret (some c) (some (errorsNew "missing required field name")) :=
  ⟨rfl, _, rfl⟩

/-- C4 (as stated, refuted): on the test manifest without a framework the
loader returns a change set and an error together. -/
theorem C4_both_returned_on_validation_failure :
    ∃ c, loadSample emptyOptions sampleNoFramework
      = Result.ret (some c) (some (errorsNew "missing required field framework")) :=
  ⟨_, rfl⟩

/-- C4 (amended): when the decoded manifest has a name the loader returns.
With no error a change set is returned; a returned change set comes with
exactly the verdict of `validate` on it (so with an error when validation
fails); no change set is returned only together with the error of the file
read, of the decoder or of the environment parser. -/
theorem C4_result_shape (rf : String → Except GoError String)
    (um : String → Except GoError Application)
    (me : List String → Except GoError (List Env)) (o : Options) (fn : String)
    (hname : ∀ b app, rf fn = Except.ok b → um b = Except.ok app → app.Name ≠ none) :
    ∃ cs err, GetChangeSetFromYaml rf um me o fn = Result.ret cs err ∧
      (err = none → cs ≠ none) ∧
      (∀ c, cs = some c → err = c.validate) ∧
      (cs = none → ∃ e, err = some e ∧
        (rf fn = Except.error e ∨
          ∃ b, rf fn = Except.ok b ∧
            (um b = Except.error e ∨
              ∃ app, um b = Except.ok app ∧ parseEnvironment me app = Except.error e))) := by
  cases hb : rf fn with
  | error e0 =>
    exact ⟨none, some e0, GetChangeSetFromYaml_read_error hb, by simp, by simp,
      fun _ => ⟨e0, rfl, Or.inl rfl⟩⟩
  | ok b =>
    cases happ : um b with
    | error e0 =>
      exact ⟨none, some e0, GetChangeSetFromYaml_decode_error hb happ, by simp, by simp,
        fun _ => ⟨e0, rfl, Or.inr ⟨b, rfl, Or.inl happ⟩⟩⟩
    | ok app =>
      rw [GetChangeSetFromYaml_decoded hb happ]
      cases henv : parseEnvironment me app with
      | error e0 =>
        exact ⟨none, some e0, changeSetFromApplication_env_error henv, by simp, by simp,
          fun _ => ⟨e0, rfl, Or.inr ⟨b, rfl, Or.inr ⟨app, happ, henv⟩⟩⟩⟩
      | ok envs =>
        cases hn : app.Name with
        | none => exact absurd hn (hname b app hb happ)
        | some name =>
          refine ⟨some _, _, changeSetFromApplication_named henv hn, by simp, ?_, by simp⟩
          intro c hc
          simp only [Option.some.injEq] at hc
          rw [← hc]

/-- Witness for C4 (amended): the manifest without a framework has a name; the
loader returns on it. -/
theorem C4_result_shape_witness :
    ∃ cs err, loadSample emptyOptions sampleNoFramework = Result.ret cs err ∧
      (err = none → cs ≠ none) ∧
      (∀ c, cs = some c → err = c.validate) ∧
      (cs = none → ∃ e, err = some e ∧
        (readFileConst "" "application.yaml" = Except.error e ∨
          ∃ b, readFileConst "" "application.yaml" = Except.ok b ∧
            (unmarshalConst sampleNoFramework b = Except.error e ∨
              ∃ app, unmarshalConst sampleNoFramework b = Except.ok app ∧
                parseEnvironment makeEnvironmentsNone app = Except.error e))) :=
  C4_result_shape (readFileConst "") (unmarshalConst sampleNoFramework) makeEnvironmentsNone
    emptyOptions "application.yaml"
    (by
      intro b app _ happ
      simp only [unmarshalConst, Except.ok.injEq] at happ
      subst happ
      decide)

/-! ## Defaulting -/

/-- The result of `applyDefaults`, field by field. -/
theorem applyDefaults_eq (c : ChangeSet) :
    c.applyDefaults =
      { c with
        appVersion := some (c.appVersion.getD defaultVersion)
        appType := some (c.appType.getD typeApplication)
        yamlStrictDecoding := true
        appUnit := some (c.appUnit.getD defaultAppUnit)
        processes := c.processes.map (fun ps => ps.map (fun p =>
          { p with Units := some (p.Units.getD (c.appUnit.getD defaultAppUnit)) })) } := by
  obtain ⟨n, v, t, im, d, f, s, b, u, tm, w, sp, cn, en, bp, ps, k, y⟩ := c
  have hmap : ∀ (a : Int) (l : List ProcessSpec),
      l.map (fun p => if p.Units = none then { p with Units := some a } else p)
        = l.map (fun p => { p with Units := some (p.Units.getD a) }) := by
    intro a l
    apply List.map_congr_left
    intro p _
    obtain ⟨pn, pc, pu, pe⟩ := p
    cases pu <;> simp
  cases v <;> cases t <;> cases u <;> cases ps <;>
    simp [ChangeSet.applyDefaults, hmap]

/-- C5: `applyDefaults` is idempotent: a second application changes no field
and no process. -/
theorem C5_applyDefaults_idempotent (c : ChangeSet) :
    c.applyDefaults.applyDefaults = c.applyDefaults := by
  rw [applyDefaults_eq c.applyDefaults, applyDefaults_eq c]
  obtain ⟨n, v, t, im, d, f, s, b, u, tm, w, sp, cn, en, bp, ps, k, y⟩ := c
  cases ps <;> simp

/-- C6: after `applyDefaults` the version is the old one or "v1", the type is
the old one or "Application", the app-unit count is the old one (an explicit
0 included) or 1, and the strict-decoding flag is true. -/
theorem C6_applyDefaults_scalars (c : ChangeSet) :
    c.applyDefaults.appVersion = some (c.appVersion.getD "v1") ∧
    c.applyDefaults.appType = some (c.appType.getD "Application") ∧
    c.applyDefaults.appUnit = some (c.appUnit.getD 1) ∧
    (c.appUnit = some 0 → c.applyDefaults.appUnit = some 0) ∧
    c.applyDefaults.yamlStrictDecoding = true := by
  rw [applyDefaults_eq c]
  refine ⟨rfl, rfl, rfl, ?_, rfl⟩
  intro h
  simp [h]

/-- Witness for C6: an explicit app-unit count of 0 is kept, and a strict
flag that was false becomes true. -/
theorem C6_applyDefaults_scalars_witness :
    ({ bareChangeSet with appUnit := some 0 } : ChangeSet).applyDefaults.appUnit = some 0 ∧
    ({ bareChangeSet with appUnit := some 0 } : ChangeSet).applyDefaults.yamlStrictDecoding
      = true :=
  ⟨(C6_applyDefaults_scalars _).2.2.2.1 rfl, (C6_applyDefaults_scalars _).2.2.2.2⟩

/-- C7: after `applyDefaults` a change set with a process list has a process
list of the same length in which the unit count of each process is its old
one when that was set, and the resolved app-unit count (the old app-unit
count, or 1) when it was unset; no process is left without a unit count. -/
theorem C7_applyDefaults_units (c : ChangeSet) (ps : List ProcessSpec)
    (hps : c.processes = some ps) :
    ∃ ps', c.applyDefaults.processes = some ps' ∧ ps'.length = ps.length ∧
      (∀ (i : Nat) (h : i < ps.length) (h' : i < ps'.length),
        (∀ u, ps[i].Units = some u → ps'[i].Units = some u) ∧
        (ps[i].Units = none → ps'[i].Units = some (c.appUnit.getD 1))) ∧
      (∀ p ∈ ps', p.Units ≠ none) := by
  refine ⟨ps.map (fun p =>
    { p with Units := some (p.Units.getD (c.appUnit.getD defaultAppUnit)) }), ?_, ?_, ?_, ?_⟩
  · rw [applyDefaults_eq c, hps]
    rfl
  · simp
  · intro i h h'
    rw [List.getElem_map]
    constructor
    · intro u hu
      simp [hu]
    · intro hu
      simp [hu, defaultAppUnit]
  · intro p hp
    rw [List.mem_map] at hp
    obtain ⟨q, -, rfl⟩ := hp
    simp

/-- Witness for C7: with app-unit count 2, a process with 1 unit and a process
with no unit count end with 1 and 2 units. -/
theorem C7_applyDefaults_units_witness :
    ∃ ps', ({ bareChangeSet with
              appUnit := some 2
              processes := some [bareSpec "web" (some 1), bareSpec "worker" none] }
            : ChangeSet).applyDefaults.processes = some ps' ∧
      ps'.map ProcessSpec.Units = [some 1, some 2] ∧
      (∀ p ∈ ps', p.Units ≠ none) := by
  obtain ⟨ps', h1, _, _, h4⟩ := C7_applyDefaults_units
    { bareChangeSet with
      appUnit := some 2
      processes := some [bareSpec "web" (some 1), bareSpec "worker" none] }
    [bareSpec "web" (some 1), bareSpec "worker" none] rfl
  refine ⟨ps', h1, ?_, h4⟩
  have h : ({ bareChangeSet with
              appUnit := some 2
              processes := some [bareSpec "web" (some 1), bareSpec "worker" none] }
            : ChangeSet).applyDefaults.processes
      = some [bareSpec "web" (some 1), bareSpec "worker" (some 2)] := by decide
  rw [h] at h1
  simp only [Option.some.injEq] at h1
  rw [← h1]
  decide

/-! ## The loop over the declared processes -/

/-- The process specs after the loop: one per declared process, in order. -/
theorem foldl_processStep_processes (envs : List Env) (ps : List Process) (st : LoopState) :
    (ps.foldl (processStep envs) st).processes =
      st.processes ++ ps.map (fun p =>
        { Name := p.Name, Cmd := stringsSplit p.Cmd ' ', Units := p.Units, Env := envs }) := by
  induction ps generalizing st with
  | nil => simp
  | cons p ps ih =>
    rw [List.foldl_cons, ih]
    simp [processStep]

/-- The `before` hooks after the loop: the non-empty ones, in order. -/
theorem foldl_processStep_beforeHooks (envs : List Env) (ps : List Process)
    (st : LoopState) :
    (ps.foldl (processStep envs) st).beforeHooks =
      st.beforeHooks ++
        (ps.map (fun p => p.Hooks.Restart.Before)).filter (fun h => decide (h ≠ "")) := by
  induction ps generalizing st with
  | nil => simp
  | cons p ps ih =>
    rw [List.foldl_cons, ih]
    by_cases h : p.Hooks.Restart.Before = "" <;> simp [processStep, h]

/-- The `after` hooks after the loop: the non-empty ones, in order. -/
theorem foldl_processStep_afterHooks (envs : List Env) (ps : List Process)
    (st : LoopState) :
    (ps.foldl (processStep envs) st).afterHooks =
      st.afterHooks ++
        (ps.map (fun p => p.Hooks.Restart.After)).filter (fun h => decide (h ≠ "")) := by
  induction ps generalizing st with
  | nil => simp
  | cons p ps ih =>
    rw [List.foldl_cons, ih]
    by_cases h : p.Hooks.Restart.After = "" <;> simp [processStep, h]

/-- The process specs the mapper builds from a manifest. -/
theorem mapProcesses_fst (envs : List Env) (app : Application) :
    (mapProcesses envs app).1 =
      (app.Processes.getD []).map (fun p =>
        { Name := p.Name, Cmd := stringsSplit p.Cmd ' ', Units := p.Units, Env := envs }) := by
  unfold mapProcesses
  cases h : app.Processes with
  | none => simp
  | some ps => simp [processLoop, foldl_processStep_processes]

/-- With a process list in the manifest, the side document has both sections;
its hook sequences are those accumulated by the loop. -/
theorem mapProcesses_snd (envs : List Env) (app : Application) (ps : List Process)
    (h : app.Processes = some ps) :
    (mapProcesses envs app).2 =
      { Hooks := some { Restart :=
          { Before := (ps.map (fun p => p.Hooks.Restart.Before)).filter
              (fun h => decide (h ≠ ""))
            After := (ps.map (fun p => p.Hooks.Restart.After)).filter
              (fun h => decide (h ≠ "")) } }
        Kubernetes := some { Processes := (processLoop envs ps).ketchYamlProcessConfig } } := by
  unfold mapProcesses
  simp [h, processLoop, foldl_processStep_beforeHooks, foldl_processStep_afterHooks]

/-- The process list of the built change set: present exactly when the mapper
produced a process spec. -/
theorem buildChangeSet_processes (o : Options) (app : Application) (name : String)
    (processes : List ProcessSpec) (kd : KetchYamlData) :
    (buildChangeSet o app name processes kd).processes =
      if processes.length > 0 then some processes else none := by
  unfold buildChangeSet
  by_cases h : processes.length > 0 <;> simp only [h, if_true, if_false] <;>
    cases app.BuildPacks <;> cases app.Environment <;> cases app.CName <;>
    by_cases h2 : o.AppSourcePath = "" <;> simp [h2]

/-- The side document of the built change set: present exactly when the mapper
produced a process spec. -/
theorem buildChangeSet_ketchYamlData (o : Options) (app : Application) (name : String)
    (processes : List ProcessSpec) (kd : KetchYamlData) :
    (buildChangeSet o app name processes kd).ketchYamlData =
      if processes.length > 0 then some kd else none := by
  unfold buildChangeSet
  by_cases h : processes.length > 0 <;> simp only [h, if_true, if_false] <;>
    cases app.BuildPacks <;> cases app.Environment <;> cases app.CName <;>
    by_cases h2 : o.AppSourcePath = "" <;> simp [h2]

/-- `applyDefaults` leaves the side document alone. -/
theorem applyDefaults_ketchYamlData (c : ChangeSet) :
    c.applyDefaults.ketchYamlData = c.ketchYamlData := by
  rw [applyDefaults_eq c]

/-- `applyDefaults` keeps the presence of the process list. -/
theorem applyDefaults_processes_eq_none (c : ChangeSet) :
    c.applyDefaults.processes = none ↔ c.processes = none := by
  rw [applyDefaults_eq c]
  simp

/-! ## The side document -/

/-- C8: when the loader returns a change set for a decoded manifest, the side
document is present exactly when the manifest declares at least one process,
and so is the process list; a present side document has both its hooks and
its port-mapping section; with the `processes` key absent or empty the side
document is absent. -/
theorem C8_side_document_iff_process
    (rf : String → Except GoError String) (um : String → Except GoError Application)
    (me : List String → Except GoError (List Env)) (o : Options) (fn b : String)
    (app : Application) (c : ChangeSet) (e : Option GoError)
    (hb : rf fn = Except.ok b) (happ : um b = Except.ok app)
    (h : GetChangeSetFromYaml rf um me o fn = Result.ret (some c) e) :
    (c.ketchYamlData ≠ none ↔ ∃ p ps, app.Processes = some (p :: ps)) ∧
    (c.processes ≠ none ↔ ∃ p ps, app.Processes = some (p :: ps)) ∧
    (∀ d, c.ketchYamlData = some d → d.Hooks ≠ none ∧ d.Kubernetes ≠ none) ∧
    (app.Processes = none ∨ app.Processes = some [] → c.ketchYamlData = none) := by
  rw [GetChangeSetFromYaml_decoded hb happ] at h
  obtain ⟨envs, name, -, -, hc, -⟩ := changeSetFromApplication_ret_some h
  have hk : c.ketchYamlData =
      if (mapProcesses envs app).1.length > 0 then some (mapProcesses envs app).2 else none := by
    rw [hc, applyDefaults_ketchYamlData, buildChangeSet_ketchYamlData]
  have hp : c.processes = none ↔ ¬ (mapProcesses envs app).1.length > 0 := by
    rw [hc, applyDefaults_processes_eq_none, buildChangeSet_processes]
    by_cases hl : (mapProcesses envs app).1.length > 0 <;> simp [hl]
  have hlen : (mapProcesses envs app).1.length = (app.Processes.getD []).length := by
    rw [mapProcesses_fst, List.length_map]
  rw [hlen] at hk hp
  cases hps : app.Processes with
  | none =>
    rw [hps] at hk hp
    simp at hk hp
    simp [hk, hp]
  | some ps =>
    cases ps with
    | nil =>
      rw [hps] at hk hp
      simp at hk hp
      simp [hk, hp]
    | cons p ps =>
      rw [hps] at hk hp
      rw [mapProcesses_snd envs app (p :: ps) hps] at hk
      simp at hk hp
      refine ⟨by simp [hk], by simp [hp], ?_, by simp⟩
      intro d hd
      rw [hk] at hd
      simp only [Option.some.injEq] at hd
      rw [← hd]
      simp

/-- Witness for C8: the test manifest with two processes yields a side
document with both sections; the manifest with no process yields none. -/
theorem C8_side_document_iff_process_witness :
    (∃ c e, loadSample dotOptions sampleUnits = Result.ret (some c) e ∧
      c.ketchYamlData ≠ none ∧
      (∀ d, c.ketchYamlData = some d → d.Hooks ≠ none ∧ d.Kubernetes ≠ none)) ∧
    (∃ c e, loadSample emptyOptions sampleDefaults = Result.ret (some c) e ∧
      c.ketchYamlData = none) :=
  ⟨⟨_, _, rfl,
      (C8_side_document_iff_process (readFileConst "") (unmarshalConst sampleUnits)
        makeEnvironmentsNone dotOptions "application.yaml" "" sampleUnits _ _
        rfl rfl rfl).1.2 ⟨_, _, rfl⟩,
      (C8_side_document_iff_process (readFileConst "") (unmarshalConst sampleUnits)
        makeEnvironmentsNone dotOptions "application.yaml" "" sampleUnits _ _
        rfl rfl rfl).2.2.1⟩,
   ⟨_, _, rfl,
      (C8_side_document_iff_process (readFileConst "") (unmarshalConst sampleDefaults)
        makeEnvironmentsNone emptyOptions "application.yaml" "" sampleDefaults _ _
        rfl rfl rfl).2.2.2 (Or.inl rfl)⟩⟩

/-- C10: when the loader returns a change set for a manifest with at least one
declared process, the side document's `before` sequence is the list of the
processes' `hooks.restart.before` strings in declaration order without the
empty ones, and the `after` sequence is the same for `hooks.restart.after`. -/
theorem C10_hook_sequences
    (rf : String → Except GoError String) (um : String → Except GoError Application)
    (me : List String → Except GoError (List Env)) (o : Options) (fn b : String)
    (app : Application) (c : ChangeSet) (e : Option GoError)
    (p : Process) (ps : List Process)
    (hb : rf fn = Except.ok b) (happ : um b = Except.ok app)
    (hps : app.Processes = some (p :: ps))
    (h : GetChangeSetFromYaml rf um me o fn = Result.ret (some c) e) :
    ∃ d hooks, c.ketchYamlData = some d ∧ d.Hooks = some hooks ∧
      hooks.Restart.Before =
        ((p :: ps).map (fun q => q.Hooks.Restart.Before)).filter (fun s => decide (s ≠ "")) ∧
      hooks.Restart.After =
        ((p :: ps).map (fun q => q.Hooks.Restart.After)).filter (fun s => decide (s ≠ "")) := by
  rw [GetChangeSetFromYaml_decoded hb happ] at h
  obtain ⟨envs, name, -, -, hc, -⟩ := changeSetFromApplication_ret_some h
  have hlen : (mapProcesses envs app).1.length > 0 := by
    rw [mapProcesses_fst, List.length_map, hps]
    simp
  have hk : c.ketchYamlData = some (mapProcesses envs app).2 := by
    rw [hc, applyDefaults_ketchYamlData, buildChangeSet_ketchYamlData, if_pos hlen]
  rw [mapProcesses_snd envs app (p :: ps) hps] at hk
  exact ⟨_, _, hk, rfl, rfl, rfl⟩

/-- Witness for C10: in the test manifest only the first process has hooks;
they are the side document's hook sequences. -/
theorem C10_hook_sequences_witness :
    ∃ c e d hooks, loadSample dotOptions sampleHooks = Result.ret (some c) e ∧
      c.ketchYamlData = some d ∧ d.Hooks = some hooks ∧
      hooks.Restart.Before = ["pwd"] ∧ hooks.Restart.After = ["echo \"test\""] := by
  obtain ⟨d, hooks, h1, h2, h3, h4⟩ :=
    C10_hook_sequences (readFileConst "") (unmarshalConst sampleHooks) makeEnvironmentsNone
      dotOptions "application.yaml" "" sampleHooks _ _ _ _ rfl rfl rfl
      (rfl : loadSample dotOptions sampleHooks = Result.ret (some _) _)
  exact ⟨_, _, d, hooks, rfl, h1, h2, h3, h4⟩

/-! ## Splitting the command line -/

/-- Cutting at a separator is `List.splitOn`. -/
theorem splitChars_eq_splitOn (sep : Char) (l : List Char) :
    splitChars sep l = l.splitOn sep := by
  induction l with
  | nil => simp [splitChars]
  | cons c cs ih =>
    rw [splitChars, ih]
    unfold List.splitOn
    rw [List.splitOnP_cons]
    by_cases h : c = sep
    · simp [h]
    · have hne : List.splitOnP (fun x => x == sep) cs ≠ [] := List.splitOnP_ne_nil _ _
      simp only [h, if_false, beq_iff_eq]
      cases hs : List.splitOnP (fun x => x == sep) cs with
      | nil => exact absurd hs hne
      | cons t ts => simp

/-- A split has at least one piece. -/
theorem splitChars_ne_nil (sep : Char) (l : List Char) : splitChars sep l ≠ [] := by
  rw [splitChars_eq_splitOn]
  exact List.splitOnP_ne_nil _ _

/-- No piece of a split contains the separator. -/
theorem splitChars_no_sep (sep : Char) (l : List Char) :
    ∀ t ∈ splitChars sep l, sep ∉ t := by
  induction l with
  | nil => simp [splitChars]
  | cons c cs ih =>
    rw [splitChars]
    by_cases h : c = sep
    · simp only [h, if_true, List.mem_cons]
      rintro t (rfl | ht)
      · simp
      · exact ih t ht
    · simp only [h, if_false]
      cases hs : splitChars sep cs with
      | nil => exact absurd hs (splitChars_ne_nil sep cs)
      | cons t ts =>
        rw [hs] at ih
        simp only [List.mem_cons]
        rintro u (rfl | hu)
        · have := ih t (List.mem_cons_self _ _)
          simp only [List.mem_cons, not_or]
          exact ⟨fun hc => h hc.symm, this⟩
        · exact ih u (List.mem_cons_of_mem _ hu)

/-- The pieces of a split, put together with the separator between them, give
the sequence back. -/
theorem intercalate_splitChars (sep : Char) (l : List Char) :
    List.intercalate [sep] (splitChars sep l) = l := by
  rw [splitChars_eq_splitOn]
  exact List.intercalate_splitOn l sep

/-- A non-empty list of separator-free pieces is the split of its join. -/
theorem splitChars_intercalate (sep : Char) (ls : List (List Char))
    (hls : ls ≠ []) (hsep : ∀ t ∈ ls, sep ∉ t) :
    splitChars sep (List.intercalate [sep] ls) = ls := by
  rw [splitChars_eq_splitOn]
  exact List.splitOn_intercalate ls sep hsep hls

/-- `strings.Split` never yields an empty slice. -/
theorem stringsSplit_ne_nil (s : String) (sep : Char) : stringsSplit s sep ≠ [] := by
  simp [stringsSplit, splitChars_ne_nil]

/-- No token of `strings.Split` contains the separator. -/
theorem stringsSplit_no_sep (s : String) (sep : Char) :
    ∀ t ∈ stringsSplit s sep, sep ∉ t.data := by
  intro t ht
  simp only [stringsSplit, List.mem_map] at ht
  obtain ⟨u, hu, rfl⟩ := ht
  exact splitChars_no_sep sep s.data u hu

/-- `strings.Join` undoes `strings.Split`. -/
theorem stringsJoin_stringsSplit (s : String) (sep : Char) :
    stringsJoin (stringsSplit s sep) sep = s := by
  simp only [stringsJoin, stringsSplit, List.map_map]
  have h : (String.data ∘ String.mk) = (id : List Char → List Char) := by
    funext l
    rfl
  rw [h, List.map_id, intercalate_splitChars]

/-- A non-empty list of separator-free tokens that joins to `s` is the split
of `s`. -/
theorem stringsSplit_unique (s : String) (sep : Char) (ts : List String)
    (hts : ts ≠ []) (hsep : ∀ t ∈ ts, sep ∉ t.data) (hjoin : stringsJoin ts sep = s) :
    ts = stringsSplit s sep := by
  subst hjoin
  simp only [stringsJoin, stringsSplit]
  rw [splitChars_intercalate sep (ts.map String.data) (by simpa using hts)
    (by
      intro t ht
      rw [List.mem_map] at ht
      obtain ⟨u, hu, rfl⟩ := ht
      exact hsep u hu)]
  rw [List.map_map]
  have h : (String.mk ∘ String.data) = (id : String → String) := by
    funext t
    rfl
  rw [h, List.map_id]

/-! ## The process list of a loaded change set -/

/-- `applyDefaults` on the built change set resolves the app-unit count of the
manifest. -/
theorem buildChangeSet_appUnit (o : Options) (app : Application) (name : String)
    (processes : List ProcessSpec) (kd : KetchYamlData) :
    (buildChangeSet o app name processes kd).appUnit = app.AppUnit := by
  unfold buildChangeSet
  by_cases h : processes.length > 0 <;> simp only [h, if_true, if_false] <;>
    cases app.BuildPacks <;> cases app.Environment <;> cases app.CName <;>
    by_cases h2 : o.AppSourcePath = "" <;> simp [h2]

/-- The process list of a change set loaded from a manifest that declares
processes: one spec per declared process, in order, with the split command,
the resolved unit count and the parsed environment. -/
theorem loaded_processes
    {rf : String → Except GoError String} {um : String → Except GoError Application}
    {me : List String → Except GoError (List Env)} {o : Options} {fn b : String}
    {app : Application} {c : ChangeSet} {e : Option GoError} {ps : List Process}
    (hb : rf fn = Except.ok b) (happ : um b = Except.ok app)
    (hps : app.Processes = some ps) (hne : ps ≠ [])
    (h : GetChangeSetFromYaml rf um me o fn = Result.ret (some c) e) :
    ∃ envs, parseEnvironment me app = Except.ok envs ∧
      c.processes = some (ps.map (fun q =>
        { Name := q.Name, Cmd := stringsSplit q.Cmd ' ',
          Units := some (q.Units.getD (app.AppUnit.getD 1)), Env := envs })) := by
  rw [GetChangeSetFromYaml_decoded hb happ] at h
  obtain ⟨envs, name, henv, -, hc, -⟩ := changeSetFromApplication_ret_some h
  refine ⟨envs, henv, ?_⟩
  have hlen : (mapProcesses envs app).1.length > 0 := by
    rw [mapProcesses_fst, List.length_map, hps]
    exact List.length_pos.2 hne
  rw [hc, applyDefaults_eq, buildChangeSet_processes, buildChangeSet_appUnit, if_pos hlen,
    mapProcesses_fst, hps]
  simp [List.map_map, Function.comp_def, defaultAppUnit]

/-- C9 (as stated, refuted): a doubled space in `cmd` yields an empty token,
and a tab does not separate tokens. -/
theorem C9_split_is_not_on_whitespace :
    ∃ c e, loadSample dotOptions sampleSpacing = Result.ret (some c) e ∧
      (c.processes.getD []).map ProcessSpec.Cmd
        = [["python", "", "app.py"], ["python\tapp.py"]] :=
  ⟨_, _, rfl, by decide⟩

/-- C9 (amended): when the loader returns a change set for a manifest that
declares processes, the command sequence of the i-th process spec is the i-th
declared `cmd` cut at every space character: it is non-empty, no token
contains a space, the tokens joined with single spaces give `cmd` back, and
it is the only token list with these properties. Tokens may be empty and no
other character separates them. -/
theorem C9_cmd_split_at_spaces
    (rf : String → Except GoError String) (um : String → Except GoError Application)
    (me : List String → Except GoError (List Env)) (o : Options) (fn b : String)
    (app : Application) (c : ChangeSet) (e : Option GoError) (ps : List Process)
    (hb : rf fn = Except.ok b) (happ : um b = Except.ok app)
    (hps : app.Processes = some ps) (hne : ps ≠ [])
    (h : GetChangeSetFromYaml rf um me o fn = Result.ret (some c) e) :
    ∃ specs, c.processes = some specs ∧ specs.length = ps.length ∧
      ∀ (i : Nat) (hi : i < ps.length) (hi' : i < specs.length),
        specs[i].Cmd ≠ [] ∧
        (∀ t ∈ specs[i].Cmd, ' ' ∉ t.data) ∧
        stringsJoin specs[i].Cmd ' ' = ps[i].Cmd ∧
        (∀ ts : List String, ts ≠ [] → (∀ t ∈ ts, ' ' ∉ t.data) →
          stringsJoin ts ' ' = ps[i].Cmd → ts = specs[i].Cmd) := by
  obtain ⟨envs, -, hc⟩ := loaded_processes hb happ hps hne h
  refine ⟨_, hc, by simp, ?_⟩
  intro i hi hi'
  rw [List.getElem_map]
  exact ⟨stringsSplit_ne_nil _ _, stringsSplit_no_sep _ _, stringsJoin_stringsSplit _ _,
    fun ts h1 h2 h3 => stringsSplit_unique _ _ ts h1 h2 h3⟩

/-- Witness for C9 (amended): on the manifest with a doubled space and a tab,
the command sequences are `python`, empty, `app.py` and the single token with
the tab. -/
theorem C9_cmd_split_at_spaces_witness :
    ∃ c e specs, loadSample dotOptions sampleSpacing = Result.ret (some c) e ∧
      c.processes = some specs ∧ specs.length = 2 ∧
      specs.map ProcessSpec.Cmd = [["python", "", "app.py"], ["python\tapp.py"]] ∧
      ∀ (i : Nat) (hi' : i < specs.length), ∀ t ∈ specs[i].Cmd, ' ' ∉ t.data := by
  obtain ⟨specs, h1, h2, h3⟩ :=
    C9_cmd_split_at_spaces (readFileConst "") (unmarshalConst sampleSpacing)
      makeEnvironmentsNone dotOptions "application.yaml" "" sampleSpacing _ _
      [plainProcess "web" "python  app.py" none, plainProcess "worker" "python\tapp.py" none]
      rfl rfl rfl (by simp)
      (rfl : loadSample dotOptions sampleSpacing = Result.ret (some _) _)
  refine ⟨_, _, specs, rfl, h1, h2, ?_, ?_⟩
  · have hd : (buildChangeSet dotOptions sampleSpacing "test"
        (mapProcesses [] sampleSpacing).1
        (mapProcesses [] sampleSpacing).2).applyDefaults.processes
        = some [{ Name := "web", Cmd := ["python", "", "app.py"], Units := some 1, Env := [] },
                { Name := "worker", Cmd := ["python\tapp.py"], Units := some 1, Env := [] }] := by
      decide
    rw [hd] at h1
    simp only [Option.some.injEq] at h1
    rw [← h1]
    decide
  · intro i hi' t ht
    exact (h3 i (h2 ▸ hi') hi').2.1 t ht

/-! ## The port mapping -/

/-- Reading a map after an assignment: the assigned key has the new value,
every other key its old one. -/
theorem GoMap.get?_set {V : Type} (m : GoMap V) (k : String) (v : V) (n : String) :
    (m.set k v).get? n = if n = k then some v else m.get? n := by
  unfold GoMap.set GoMap.get?
  by_cases h : n = k
  · subst h
    simp
  · have hk : ¬ k = n := fun hc => h hc.symm
    rw [List.find?_cons]
    simp only [hk, decide_False, h, if_false]
    rw [List.find?_filter]
    congr 2
    funext e
    by_cases he : e.1 = n
    · simp [he, h]
    · simp [he]

/-- An assignment keeps the keys of a map distinct. -/
theorem GoMap.set_keys_nodup {V : Type} (m : GoMap V) (k : String) (v : V)
    (h : (m.map Prod.fst).Nodup) : ((m.set k v).map Prod.fst).Nodup := by
  unfold GoMap.set
  rw [List.map_cons, List.nodup_cons]
  constructor
  · intro hk
    rw [List.mem_map] at hk
    obtain ⟨e, he, hek⟩ := hk
    rw [List.mem_filter] at he
    simp at he
    exact he.2 hek
  · exact (List.Nodup.filter _ h.of_map).map_on (by
      intro a ha b hb hab
      rw [List.mem_filter] at ha hb
      exact (List.inj_on_of_nodup_map h) ha.1 hb.1 hab)

/-- An assignment adds at most one entry to a map. -/
theorem GoMap.set_length_le {V : Type} (m : GoMap V) (k : String) (v : V) :
    (m.set k v).length ≤ m.length + 1 := by
  unfold GoMap.set
  rw [List.length_cons]
  exact Nat.succ_le_succ (List.length_filter_le _ _)

/-- The inner loop copies the ports one by one. -/
theorem portConfigs_eq_map (ports : List Port) :
    portConfigs ports = ports.map (fun port =>
      { Protocol := port.Protocol, Port := port.Port, TargetPort := port.TargetPort }) := by
  unfold portConfigs
  have h : ∀ (acc : List KetchYamlProcessPortConfig),
      ports.foldl (fun acc port =>
        acc ++ [{ Protocol := port.Protocol, Port := port.Port,
                  TargetPort := port.TargetPort }]) acc
      = acc ++ ports.map (fun port =>
          { Protocol := port.Protocol, Port := port.Port, TargetPort := port.TargetPort }) := by
    induction ports with
    | nil => simp
    | cons p ps ih =>
      intro acc
      rw [List.foldl_cons, ih]
      simp
  simpa using h []

/-- The port mapping after one more iteration of the loop. -/
theorem processStep_config (envs : List Env) (st : LoopState) (p : Process) :
    (processStep envs st p).ketchYamlProcessConfig =
      if p.Ports.length > 0 then
        st.ketchYamlProcessConfig.set p.Name { Ports := portConfigs p.Ports }
      else st.ketchYamlProcessConfig := rfl

/-- The port mapping after the loop, read at `n`: the ports of the last
declared process named `n` with a non-empty ports list, or the entry the map
had before the loop. -/
theorem foldl_processStep_config_get? (envs : List Env) (ps : List Process)
    (st : LoopState) (n : String) :
    (ps.foldl (processStep envs) st).ketchYamlProcessConfig.get? n =
      match ps.reverse.find? (fun p => decide (p.Name = n ∧ p.Ports ≠ [])) with
      | some p => some { Ports := portConfigs p.Ports }
      | none => st.ketchYamlProcessConfig.get? n := by
  induction ps using List.reverseRecOn with
  | nil => simp
  | append_singleton l a ih =>
    rw [List.foldl_append, List.foldl_cons, List.foldl_nil, processStep_config,
      List.reverse_append, List.reverse_singleton, List.singleton_append, List.find?_cons]
    by_cases hp : a.Ports = []
    · simp [hp, ih]
    · have hlen : a.Ports.length > 0 := List.length_pos.2 hp
      rw [if_pos hlen, GoMap.get?_set]
      by_cases hn : a.Name = n
      · simp [hn, hp]
      · have hn' : ¬ n = a.Name := fun hc => hn hc.symm
        simp [hn, hn', ih]

/-- The keys of the port mapping stay distinct through the loop. -/
theorem foldl_processStep_config_nodup (envs : List Env) (ps : List Process)
    (st : LoopState) (h : (st.ketchYamlProcessConfig.map Prod.fst).Nodup) :
    ((ps.foldl (processStep envs) st).ketchYamlProcessConfig.map Prod.fst).Nodup := by
  induction ps generalizing st with
  | nil => simpa using h
  | cons p ps ih =>
    rw [List.foldl_cons]
    apply ih
    rw [processStep_config]
    by_cases hp : p.Ports.length > 0
    · rw [if_pos hp]
      exact GoMap.set_keys_nodup _ _ _ h
    · rw [if_neg hp]
      exact h

/-- The loop adds at most one entry per process with a non-empty ports list. -/
theorem foldl_processStep_config_length (envs : List Env) (ps : List Process)
    (st : LoopState) :
    (ps.foldl (processStep envs) st).ketchYamlProcessConfig.length ≤
      st.ketchYamlProcessConfig.length +
        (ps.filter (fun p => decide (p.Ports ≠ []))).length := by
  induction ps generalizing st with
  | nil => simp
  | cons p ps ih =>
    rw [List.foldl_cons]
    refine le_trans (ih _) ?_
    rw [processStep_config]
    by_cases hp : p.Ports = []
    · simp [hp]
    · have hlen : p.Ports.length > 0 := List.length_pos.2 hp
      rw [if_pos hlen]
      have := GoMap.set_length_le st.ketchYamlProcessConfig p.Name
        { Ports := portConfigs p.Ports }
      have hf : (List.filter (fun p => decide (p.Ports ≠ [])) (p :: ps)).length
          = (List.filter (fun p => decide (p.Ports ≠ [])) ps).length + 1 := by
        simp [List.filter_cons, hp]
      rw [hf]
      omega

/-- The side document of a change set loaded from a manifest that declares
processes: the filtered hook sequences and the port mapping of the loop. -/
theorem loaded_ketchYamlData
    {rf : String → Except GoError String} {um : String → Except GoError Application}
    {me : List String → Except GoError (List Env)} {o : Options} {fn b : String}
    {app : Application} {c : ChangeSet} {e : Option GoError} {ps : List Process}
    (hb : rf fn = Except.ok b) (happ : um b = Except.ok app)
    (hps : app.Processes = some ps) (hne : ps ≠ [])
    (h : GetChangeSetFromYaml rf um me o fn = Result.ret (some c) e) :
    ∃ envs, parseEnvironment me app = Except.ok envs ∧
      c.ketchYamlData = some
        { Hooks := some { Restart :=
            { Before := (ps.map (fun p => p.Hooks.Restart.Before)).filter
                (fun h => decide (h ≠ ""))
              After := (ps.map (fun p => p.Hooks.Restart.After)).filter
                (fun h => decide (h ≠ "")) } }
          Kubernetes := some
            { Processes := (processLoop envs ps).ketchYamlProcessConfig } } := by
  rw [GetChangeSetFromYaml_decoded hb happ] at h
  obtain ⟨envs, name, henv, -, hc, -⟩ := changeSetFromApplication_ret_some h
  refine ⟨envs, henv, ?_⟩
  have hlen : (mapProcesses envs app).1.length > 0 := by
    rw [mapProcesses_fst, List.length_map, hps]
    exact List.length_pos.2 hne
  rw [hc, applyDefaults_ketchYamlData, buildChangeSet_ketchYamlData, if_pos hlen,
    mapProcesses_snd envs app ps hps]

/-- The port mapping of the whole loop, read at `n`. -/
theorem processLoop_config_get? (envs : List Env) (ps : List Process) (n : String) :
    (processLoop envs ps).ketchYamlProcessConfig.get? n =
      (ps.reverse.find? (fun p => decide (p.Name = n ∧ p.Ports ≠ []))).map
        (fun p => { Ports := p.Ports.map (fun port =>
          { Protocol := port.Protocol, Port := port.Port, TargetPort := port.TargetPort }) }) := by
  unfold processLoop
  rw [foldl_processStep_config_get?]
  cases ps.reverse.find? (fun p => decide (p.Name = n ∧ p.Ports ≠ [])) with
  | none => simp [GoMap.empty, GoMap.get?]
  | some p => simp [portConfigs_eq_map]

/-- C11: when the loader returns a change set for a manifest with at least one
declared process, the port mapping has an entry for a name exactly when some
declared process of that name has a non-empty ports list; with distinct
process names the entry of a process holds its ports, in order, each with the
same protocol, port and target port. -/
theorem C11_port_mapping
    (rf : String → Except GoError String) (um : String → Except GoError Application)
    (me : List String → Except GoError (List Env)) (o : Options) (fn b : String)
    (app : Application) (c : ChangeSet) (e : Option GoError) (ps : List Process)
    (hb : rf fn = Except.ok b) (happ : um b = Except.ok app)
    (hps : app.Processes = some ps) (hne : ps ≠ [])
    (h : GetChangeSetFromYaml rf um me o fn = Result.ret (some c) e) :
    ∃ d k, c.ketchYamlData = some d ∧ d.Kubernetes = some k ∧
      (∀ n, k.Processes.get? n ≠ none ↔ ∃ p ∈ ps, p.Name = n ∧ p.Ports ≠ []) ∧
      ((ps.map Process.Name).Nodup → ∀ p ∈ ps, p.Ports ≠ [] →
        k.Processes.get? p.Name = some { Ports := p.Ports.map (fun port =>
          { Protocol := port.Protocol, Port := port.Port,
            TargetPort := port.TargetPort }) }) := by
  obtain ⟨envs, -, hk⟩ := loaded_ketchYamlData hb happ hps hne h
  refine ⟨_, _, hk, rfl, ?_, ?_⟩
  · intro n
    simp only [processLoop_config_get?]
    rw [Ne, Option.map_eq_none', List.find?_eq_none]
    simp only [List.mem_reverse, decide_eq_true_eq, not_forall, not_not]
    constructor
    · rintro ⟨p, hp, hq⟩
      exact ⟨p, hp, hq⟩
    · rintro ⟨p, hp, hq⟩
      exact ⟨p, hp, hq⟩
  · intro hnd p hp hports
    simp only [processLoop_config_get?]
    cases hf : ps.reverse.find? (fun q => decide (q.Name = p.Name ∧ q.Ports ≠ [])) with
    | none =>
      rw [List.find?_eq_none] at hf
      have := hf p (List.mem_reverse.2 hp)
      simp [hports] at this
    | some q =>
      have hq := List.find?_some hf
      have hmem : q ∈ ps := List.mem_reverse.1 (List.mem_of_find?_eq_some hf)
      simp only [decide_eq_true_eq] at hq
      have hqp : q = p := List.inj_on_of_nodup_map hnd hmem hp hq.1
      rw [hqp]
      rfl

/-- Witness for C11: in the test manifest "success" the processes `web` and
`worker` both have one port; both have an entry with that port, and no other
name has one. -/
theorem C11_port_mapping_witness :
    ∃ c e d k, loadSampleEnv dotOptions sampleFull = Result.ret (some c) e ∧
      c.ketchYamlData = some d ∧ d.Kubernetes = some k ∧
      k.Processes.get? "web"
        = some { Ports := [{ Protocol := "TCP", Port := 8888, TargetPort := 6666 }] } ∧
      k.Processes.get? "worker"
        = some { Ports := [{ Protocol := "TCP", Port := 8888, TargetPort := 6666 }] } ∧
      ¬ (k.Processes.get? "other" ≠ none) := by
  obtain ⟨d, k, h1, h2, h3, h4⟩ :=
    C11_port_mapping (readFileConst "") (unmarshalConst sampleFull) makeEnvironmentsSpec
      dotOptions "application.yaml" "" sampleFull _ _
      [{ Name := "web", Cmd := "python app.py", Units := some 1,
         Ports := [{ Protocol := "TCP", Port := 8888, TargetPort := 6666 }],
         Hooks := { Restart := { Before := "pwd", After := "echo \"test\"" } } },
       { Name := "worker", Cmd := "python app.py", Units := some 1,
         Ports := [{ Protocol := "TCP", Port := 8888, TargetPort := 6666 }],
         Hooks := { Restart := { Before := "", After := "" } } }]
      rfl rfl rfl (by simp)
      (rfl : loadSampleEnv dotOptions sampleFull = Result.ret (some _) _)
  refine ⟨_, _, d, k, rfl, h1, h2, ?_, ?_, ?_⟩
  · exact h4 (by decide) _ (List.mem_cons_self _ _) (by simp)
  · exact h4 (by decide) _ (List.mem_cons_of_mem _ (List.mem_cons_self _ _)) (by simp)
  · rw [h3 "other"]
    decide

/-! ## The environment -/

/-- The value of `envs` is empty without an environment and the parser's
result with one. -/
theorem parseEnvironment_ok {me : List String → Except GoError (List Env)}
    {app : Application} {envs : List Env} (h : parseEnvironment me app = Except.ok envs) :
    (app.Environment = none → envs = []) ∧
    (∀ environment, app.Environment = some environment →
      me environment = Except.ok envs) := by
  unfold parseEnvironment at h
  cases henv : app.Environment with
  | none =>
    rw [henv] at h
    simp only [Except.ok.injEq] at h
    simp [h]
  | some environment =>
    rw [henv] at h
    refine ⟨by simp, ?_⟩
    intro environment' he
    simp only [Option.some.injEq] at he
    subst he
    exact h

/-- C12: when the loader returns a change set for a manifest with n >= 1
declared processes, the process list has n specs, the i-th with the name of
the i-th declared process, and every spec carries the same environment: the
pairs the parser produced from the manifest's environment, and no pair when
the manifest has no environment. -/
theorem C12_process_list_and_shared_env
    (rf : String → Except GoError String) (um : String → Except GoError Application)
    (me : List String → Except GoError (List Env)) (o : Options) (fn b : String)
    (app : Application) (c : ChangeSet) (e : Option GoError) (ps : List Process)
    (hb : rf fn = Except.ok b) (happ : um b = Except.ok app)
    (hps : app.Processes = some ps) (hne : ps ≠ [])
    (h : GetChangeSetFromYaml rf um me o fn = Result.ret (some c) e) :
    ∃ specs envs, c.processes = some specs ∧ specs.length = ps.length ∧
      (∀ (i : Nat) (hi : i < ps.length) (hi' : i < specs.length),
        specs[i].Name = ps[i].Name ∧ specs[i].Env = envs) ∧
      (app.Environment = none → envs = []) ∧
      (∀ environment, app.Environment = some environment →
        me environment = Except.ok envs) := by
  obtain ⟨envs, henv, hc⟩ := loaded_processes hb happ hps hne h
  refine ⟨_, envs, hc, by simp, ?_, (parseEnvironment_ok henv).1, (parseEnvironment_ok henv).2⟩
  intro i hi hi'
  rw [List.getElem_map]
  exact ⟨rfl, rfl⟩

/-- Witness for C12: on the test manifest "success" both process specs, `web`
and `worker`, carry the two pairs of the environment. -/
theorem C12_process_list_and_shared_env_witness :
    ∃ c e specs, loadSampleEnv dotOptions sampleFull = Result.ret (some c) e ∧
      c.processes = some specs ∧ specs.length = 2 ∧
      ∀ (i : Nat) (hi' : i < specs.length),
        specs[i].Env = [{ Name := "PORT", Value := "6666" }, { Name := "FOO", Value := "bar" }] := by
  obtain ⟨specs, envs, h1, h2, h3, _, h5⟩ :=
    C12_process_list_and_shared_env (readFileConst "") (unmarshalConst sampleFull)
      makeEnvironmentsSpec dotOptions "application.yaml" "" sampleFull _ _
      [{ Name := "web", Cmd := "python app.py", Units := some 1,
         Ports := [{ Protocol := "TCP", Port := 8888, TargetPort := 6666 }],
         Hooks := { Restart := { Before := "pwd", After := "echo \"test\"" } } },
       { Name := "worker", Cmd := "python app.py", Units := some 1,
         Ports := [{ Protocol := "TCP", Port := 8888, TargetPort := 6666 }],
         Hooks := { Restart := { Before := "", After := "" } } }]
      rfl rfl rfl (by simp)
      (rfl : loadSampleEnv dotOptions sampleFull = Result.ret (some _) _)
  have henvs : envs = [{ Name := "PORT", Value := "6666" }, { Name := "FOO", Value := "bar" }] := by
    have h6 := h5 ["PORT=6666", "FOO=bar"] rfl
    have h7 : makeEnvironmentsSpec ["PORT=6666", "FOO=bar"]
        = Except.ok [{ Name := "PORT", Value := "6666" }, { Name := "FOO", Value := "bar" }] := by
      rfl
    rw [h7] at h6
    simp only [Except.ok.injEq] at h6
    exact h6.symm
  refine ⟨_, _, specs, rfl, h1, h2, ?_⟩
  intro i hi'
  rw [(h3 i (h2 ▸ hi') hi').2, henvs]

/-- An entry has no pair exactly when it has no `=`. -/
theorem parseEnvEntry_eq_none (entry : String) :
    parseEnvEntry entry = none ↔ '=' ∉ entry.data := by
  unfold parseEnvEntry
  rw [List.span_eq_take_drop]
  have hiff : List.dropWhile (fun ch => decide (ch ≠ '=')) entry.data = [] ↔
      '=' ∉ entry.data := by
    rw [List.dropWhile_eq_nil_iff]
    constructor
    · intro h hmem
      simpa using h '=' hmem
    · intro h x hx
      simp only [ne_eq, decide_not, Bool.not_eq_true', decide_eq_false_iff_not]
      rintro rfl
      exact h hx
  cases hd : List.dropWhile (fun ch => decide (ch ≠ '=')) entry.data with
  | nil =>
    simp only [true_iff]
    exact hiff.1 hd
  | cons x xs =>
    constructor
    · intro hc
      simp at hc
    · intro hc
      have := hiff.2 hc
      rw [hd] at this
      simp at this

/-- The parser modelled from the spec fails, with its format error, on an
environment with an entry that has no `=`. -/
theorem makeEnvironmentsSpec_malformed (environment : List String)
    (h : ∃ entry ∈ environment, '=' ∉ entry.data) :
    makeEnvironmentsSpec environment = Except.error envFormatError := by
  induction environment with
  | nil => simp at h
  | cons entry rest ih =>
    unfold makeEnvironmentsSpec
    cases hp : parseEnvEntry entry with
    | none => rfl
    | some env =>
      have hrest : ∃ x ∈ rest, '=' ∉ x.data := by
        obtain ⟨x, hx, hxe⟩ := h
        rw [List.mem_cons] at hx
        rcases hx with rfl | hx
        · have := (parseEnvEntry_eq_none x).2 hxe
          rw [hp] at this
          exact absurd this (by simp)
        · exact ⟨x, hx, hxe⟩
      simp only [ih hrest]

/-- C13: when the manifest has an environment on which the parser fails, the
loader returns the parser's own error value and no change set, whatever else
the manifest and the options hold; so when that error is classified as
InvalidValue, the returned error is classified as InvalidValue. With the
parser modelled from the spec and an environment with an entry that has no
`=`, the returned error is the InvalidValue error with the message "env
variables should have NAME=VALUE format": its causal chain ends in the kind
InvalidValue, `isValid` is false of it, its message contains "NAME=VALUE
format", and it is not the unclassified error rebuilt from that message. -/
theorem C13_env_error_propagated
    (rf : String → Except GoError String) (um : String → Except GoError Application)
    (o : Options) (fn b : String) (app : Application) (environment : List String)
    (hb : rf fn = Except.ok b) (happ : um b = Except.ok app)
    (henv : app.Environment = some environment) :
    (∀ (me : List String → Except GoError (List Env)) (err : GoError),
      me environment = Except.error err →
      GetChangeSetFromYaml rf um me o fn = Result.ret none (some err)) ∧
    (∀ (me : List String → Except GoError (List Env)) (e : ClassifiedError),
      me environment = Except.error (GoError.taxonomy e) →
      e.terminalKind = some ErrorKind.invalidValue →
      ∃ e', GetChangeSetFromYaml rf um me o fn = Result.ret none (some (GoError.taxonomy e')) ∧
        e'.terminalKind = some ErrorKind.invalidValue ∧ e'.message = e.message) ∧
    ((∃ entry ∈ environment, '=' ∉ entry.data) →
      ∃ e, GetChangeSetFromYaml rf um makeEnvironmentsSpec o fn
          = Result.ret none (some (GoError.taxonomy e)) ∧
        e = newInvalidValueError "env variables should have NAME=VALUE format" ∧
        e.terminalKind = some ErrorKind.invalidValue ∧
        isValid (some e) = false ∧ isMissing (some e) = false ∧
        (GoError.taxonomy e).msg = "env variables should have " ++ "NAME=VALUE format" ∧
        GoError.taxonomy e ≠ errorsNew (GoError.taxonomy e).msg) := by
  have key : ∀ (me : List String → Except GoError (List Env)) (err : GoError),
      me environment = Except.error err →
      GetChangeSetFromYaml rf um me o fn = Result.ret none (some err) := by
    intro me err hme
    rw [GetChangeSetFromYaml_decoded hb happ]
    apply changeSetFromApplication_env_error
    unfold parseEnvironment
    rw [henv]
    exact hme
  refine ⟨key, ?_, ?_⟩
  · intro me e hme hkind
    exact ⟨e, key me _ hme, hkind, rfl⟩
  · intro hbad
    exact ⟨_, key _ _ (makeEnvironmentsSpec_malformed environment hbad), rfl, rfl, rfl, rfl,
      by decide, by simp [errorsNew]⟩

/-- Witness for C13: the test manifest "error - malformed envvar", and a
manifest that has the malformed entry, a process and neither name, framework
nor image, both give the InvalidValue format error and no change set. -/
theorem C13_env_error_propagated_witness :
    loadSampleEnv emptyOptions sampleBadEnv
      = Result.ret none (some (GoError.taxonomy
          (newInvalidValueError "env variables should have NAME=VALUE format"))) ∧
    loadSampleEnv emptyOptions sampleBadEnvOnly
      = Result.ret none (some (GoError.taxonomy
          (newInvalidValueError "env variables should have NAME=VALUE format"))) := by
  obtain ⟨e1, h1, he1, -⟩ :=
    (C13_env_error_propagated (readFileConst "") (unmarshalConst sampleBadEnv) emptyOptions
      "application.yaml" "" sampleBadEnv ["bad:variable"] rfl rfl rfl).2.2
      ⟨"bad:variable", by simp, by decide⟩
  obtain ⟨e2, h2, he2, -⟩ :=
    (C13_env_error_propagated (readFileConst "") (unmarshalConst sampleBadEnvOnly) emptyOptions
      "application.yaml" "" sampleBadEnvOnly ["bad:variable"] rfl rfl rfl).2.2
      ⟨"bad:variable", by simp, by decide⟩
  subst he1
  subst he2
  exact ⟨h1, h2⟩

/-! ## The fields copied from the manifest and the options -/

/-- The built change set, field by field. -/
theorem buildChangeSet_eq (o : Options) (app : Application) (name : String)
    (processes : List ProcessSpec) (kd : KetchYamlData) :
    buildChangeSet o app name processes kd =
      { appName := name
        appVersion := app.Version
        appType := app.Type_
        image := app.Image
        description := app.Description
        framework := app.Framework
        dockerRegistrySecret := app.RegistrySecret
        builder := app.Builder
        appUnit := app.AppUnit
        timeout := some o.Timeout
        wait := some o.Wait
        sourcePath := if o.AppSourcePath = "" then none else some o.AppSourcePath
        cname := app.CName.map (fun cn => [cn.DNSName])
        envs := app.Environment
        buildPacks := app.BuildPacks
        processes := if processes.length > 0 then some processes else none
        ketchYamlData := if processes.length > 0 then some kd else none
        yamlStrictDecoding := false } := by
  obtain ⟨v, t, n, im, f, d, en, rs, bu, bp, pr, cn, au⟩ := app
  unfold buildChangeSet
  by_cases h : processes.length > 0 <;> by_cases h2 : o.AppSourcePath = "" <;>
    cases cn <;> cases en <;> cases bp <;> simp [h, h2]

/-- The fields of the built change set that do not depend on the processes. -/
theorem buildChangeSet_scalars (o : Options) (app : Application) (name : String)
    (processes : List ProcessSpec) (kd : KetchYamlData) :
    (buildChangeSet o app name processes kd).appName = name ∧
    (buildChangeSet o app name processes kd).image = app.Image ∧
    (buildChangeSet o app name processes kd).framework = app.Framework ∧
    (buildChangeSet o app name processes kd).description = app.Description ∧
    (buildChangeSet o app name processes kd).dockerRegistrySecret = app.RegistrySecret ∧
    (buildChangeSet o app name processes kd).builder = app.Builder ∧
    (buildChangeSet o app name processes kd).sourcePath =
      (if o.AppSourcePath = "" then none else some o.AppSourcePath) := by
  rw [buildChangeSet_eq]
  exact ⟨rfl, rfl, rfl, rfl, rfl, rfl, rfl⟩

/-- The fields `applyDefaults` does not assign. -/
theorem applyDefaults_frame (c : ChangeSet) :
    c.applyDefaults.appName = c.appName ∧
    c.applyDefaults.image = c.image ∧
    c.applyDefaults.framework = c.framework ∧
    c.applyDefaults.description = c.description ∧
    c.applyDefaults.dockerRegistrySecret = c.dockerRegistrySecret ∧
    c.applyDefaults.builder = c.builder ∧
    c.applyDefaults.sourcePath = c.sourcePath ∧
    c.applyDefaults.cname = c.cname ∧
    c.applyDefaults.envs = c.envs ∧
    c.applyDefaults.buildPacks = c.buildPacks ∧
    c.applyDefaults.timeout = c.timeout ∧
    c.applyDefaults.wait = c.wait ∧
    c.applyDefaults.ketchYamlData = c.ketchYamlData := by
  rw [applyDefaults_eq c]
  exact ⟨rfl, rfl, rfl, rfl, rfl, rfl, rfl, rfl, rfl, rfl, rfl, rfl, rfl⟩

/-- The scalar fields of a loaded change set, in terms of the manifest and
the options. -/
theorem loaded_scalars
    {rf : String → Except GoError String} {um : String → Except GoError Application}
    {me : List String → Except GoError (List Env)} {o : Options} {fn b : String}
    {app : Application} {c : ChangeSet} {e : Option GoError}
    (hb : rf fn = Except.ok b) (happ : um b = Except.ok app)
    (h : GetChangeSetFromYaml rf um me o fn = Result.ret (some c) e) :
    app.Name = some c.appName ∧
    c.image = app.Image ∧ c.framework = app.Framework ∧
    c.description = app.Description ∧ c.dockerRegistrySecret = app.RegistrySecret ∧
    c.builder = app.Builder ∧
    c.sourcePath = (if o.AppSourcePath = "" then none else some o.AppSourcePath) := by
  rw [GetChangeSetFromYaml_decoded hb happ] at h
  obtain ⟨envs, name, -, hname, hc, -⟩ := changeSetFromApplication_ret_some h
  obtain ⟨f1, f2, f3, f4, f5, f6, f7, -⟩ :=
    applyDefaults_frame (buildChangeSet o app name (mapProcesses envs app).1
      (mapProcesses envs app).2)
  obtain ⟨g1, g2, g3, g4, g5, g6, g7⟩ :=
    buildChangeSet_scalars o app name (mapProcesses envs app).1 (mapProcesses envs app).2
  rw [hc, f1, f2, f3, f4, f5, f6, f7, g1, g2, g3, g4, g5, g6, g7]
  exact ⟨hname, rfl, rfl, rfl, rfl, rfl, rfl⟩

/-- C14 (as stated, refuted): a manifest with framework, image, a process and
a name that is present but empty, loaded with an empty source path, fails
with the error of the name rule, which does not mention `sourcePath`. -/
theorem C14_empty_name_error_comes_first :
    sampleEmptyName.Name = some "" ∧ sampleEmptyName.Framework ≠ none ∧
    sampleEmptyName.Image ≠ none ∧
    sampleEmptyName.Processes = some [plainProcess "web" "python app.py" none] ∧
    emptyOptions.AppSourcePath = "" ∧
    ∃ c, loadSample emptyOptions sampleEmptyName
      = Result.ret (some c) (some (errorsNew "missing required field name")) :=
  ⟨rfl, by decide, by decide, rfl, rfl, _, rfl⟩

/-- C14 (amended): in a change set the loader returns, the source path is set
exactly when the options' source path is non-empty, and then equals it; and
for a manifest with at least one process, a framework, an image, a non-empty
name and an environment the parser accepts, loaded with an empty source
path, the loader returns the error "running defined processes require a
sourcePath". -/
theorem C14_source_path
    (rf : String → Except GoError String) (um : String → Except GoError Application)
    (me : List String → Except GoError (List Env)) (o : Options) (fn b : String)
    (app : Application)
    (hb : rf fn = Except.ok b) (happ : um b = Except.ok app) :
    (∀ c e, GetChangeSetFromYaml rf um me o fn = Result.ret (some c) e →
      (c.sourcePath ≠ none ↔ o.AppSourcePath ≠ "") ∧
      (∀ sp, c.sourcePath = some sp → sp = o.AppSourcePath) ∧
      c.sourcePath ≠ some "") ∧
    (∀ (p : Process) (ps : List Process) (name : String) (envs : List Env),
      app.Processes = some (p :: ps) → app.Framework ≠ none → app.Image ≠ none →
      app.Name = some name → name ≠ "" → parseEnvironment me app = Except.ok envs →
      o.AppSourcePath = "" →
      ∃ c, GetChangeSetFromYaml rf um me o fn = Result.ret (some c)
        (some (errorsNew "running defined processes require a sourcePath"))) := by
  constructor
  · intro c e h
    obtain ⟨-, -, -, -, -, -, hsp⟩ := loaded_scalars hb happ h
    rw [hsp]
    by_cases ho : o.AppSourcePath = ""
    · simp [ho]
    · rw [if_neg ho]
      refine ⟨⟨fun _ => ho, fun _ => by simp⟩, ?_, ?_⟩
      · intro sp hspe
        simp only [Option.some.injEq] at hspe
        exact hspe.symm
      · intro hc
        simp only [Option.some.injEq] at hc
        exact ho hc
  · intro p ps name envs hps hf hi hname hne henv ho
    have hret := @changeSetFromApplication_named me o app envs name henv hname
    rw [← @GetChangeSetFromYaml_decoded rf um me o fn b app hb happ] at hret
    refine ⟨(buildChangeSet o app name (mapProcesses envs app).1
      (mapProcesses envs app).2).applyDefaults, ?_⟩
    rw [hret]
    congr 1
    obtain ⟨-, g2, g3, -, -, -, g7⟩ :=
      loaded_scalars hb happ hret
    obtain ⟨envs', _, hpr⟩ := loaded_processes hb happ hps (List.cons_ne_nil p ps) hret
    obtain ⟨f1, -⟩ := applyDefaults_frame (buildChangeSet o app name (mapProcesses envs app).1
      (mapProcesses envs app).2)
    obtain ⟨g1, -⟩ :=
      buildChangeSet_scalars o app name (mapProcesses envs app).1 (mapProcesses envs app).2
    rw [validate_unfold, g3, g2, g7, hpr, f1, g1]
    simp [hf, hi, hne, ho]

/-- Witness for C14 (amended): the test manifest "validation error - processes
without sourcePath" with empty options gives the source-path error, and the
change set returned with it has no source path. -/
theorem C14_source_path_witness :
    ∃ c, loadSample emptyOptions sampleNoSourcePath = Result.ret (some c)
        (some (errorsNew "running defined processes require a sourcePath")) ∧
      c.sourcePath = none := by
  obtain ⟨c, hc⟩ :=
    (C14_source_path (readFileConst "") (unmarshalConst sampleNoSourcePath)
      makeEnvironmentsNone emptyOptions "application.yaml" "" sampleNoSourcePath rfl rfl).2
      (plainProcess "web" "python app.py" none) [] "test" [] rfl (by decide) (by decide) rfl
      (by decide) rfl rfl
  refine ⟨c, hc, ?_⟩
  have h := ((C14_source_path (readFileConst "") (unmarshalConst sampleNoSourcePath)
      makeEnvironmentsNone emptyOptions "application.yaml" "" sampleNoSourcePath rfl rfl).1
      c _ hc).1
  by_contra hne
  exact (h.1 hne) rfl

/-- C16: in a change set the loader returns, image, framework, description,
registry secret and builder are the manifest's fields with their presence
kept (absent stays absent, an empty string stays present and empty); this
holds for the change set as built and still after `applyDefaults`. -/
theorem C16_optional_scalars_copied
    (rf : String → Except GoError String) (um : String → Except GoError Application)
    (me : List String → Except GoError (List Env)) (o : Options) (fn b : String)
    (app : Application) (c : ChangeSet) (e : Option GoError)
    (hb : rf fn = Except.ok b) (happ : um b = Except.ok app)
    (h : GetChangeSetFromYaml rf um me o fn = Result.ret (some c) e) :
    (c.image = app.Image ∧ c.framework = app.Framework ∧
      c.description = app.Description ∧ c.dockerRegistrySecret = app.RegistrySecret ∧
      c.builder = app.Builder) ∧
    ∃ c₀ : ChangeSet, c = c₀.applyDefaults ∧
      c₀.image = app.Image ∧ c₀.framework = app.Framework ∧
      c₀.description = app.Description ∧ c₀.dockerRegistrySecret = app.RegistrySecret ∧
      c₀.builder = app.Builder := by
  obtain ⟨-, g2, g3, g4, g5, g6, -⟩ := loaded_scalars hb happ h
  refine ⟨⟨g2, g3, g4, g5, g6⟩, ?_⟩
  rw [GetChangeSetFromYaml_decoded hb happ] at h
  obtain ⟨envs, name, -, -, hc, -⟩ := changeSetFromApplication_ret_some h
  obtain ⟨-, k2, k3, k4, k5, k6, -⟩ :=
    buildChangeSet_scalars o app name (mapProcesses envs app).1 (mapProcesses envs app).2
  exact ⟨_, hc, k2, k3, k4, k5, k6⟩

/-- Witness for C16: in the test manifest "success" the registry secret is
absent and stays absent, and the description is copied. -/
theorem C16_optional_scalars_copied_witness :
    ∃ c e, loadSampleEnv dotOptions sampleFull = Result.ret (some c) e ∧
      c.dockerRegistrySecret = none ∧ c.description = some "a test" ∧
      c.image = some "gcr.io/kubernetes/sample-app:latest" :=
  ⟨_, _, rfl,
    (C16_optional_scalars_copied (readFileConst "") (unmarshalConst sampleFull)
      makeEnvironmentsSpec dotOptions "application.yaml" "" sampleFull _ _ rfl rfl
      (rfl : loadSampleEnv dotOptions sampleFull = Result.ret (some _) _)).1.2.2.2.1,
    (C16_optional_scalars_copied (readFileConst "") (unmarshalConst sampleFull)
      makeEnvironmentsSpec dotOptions "application.yaml" "" sampleFull _ _ rfl rfl
      (rfl : loadSampleEnv dotOptions sampleFull = Result.ret (some _) _)).1.2.2.1,
    (C16_optional_scalars_copied (readFileConst "") (unmarshalConst sampleFull)
      makeEnvironmentsSpec dotOptions "application.yaml" "" sampleFull _ _ rfl rfl
      (rfl : loadSampleEnv dotOptions sampleFull = Result.ret (some _) _)).1.1⟩

/-! ## Defaulting and validation -/

/-- C17: `validate` gives the same result, nil or the same error, on a change
set after `applyDefaults` as before it. -/
theorem C17_defaults_keep_verdict (c : ChangeSet) :
    c.applyDefaults.validate = c.validate := by
  obtain ⟨f1, f2, f3, -, -, -, f7, -⟩ := applyDefaults_frame c
  have hp : (c.applyDefaults.processes ≠ none) ↔ (c.processes ≠ none) :=
    not_congr (applyDefaults_processes_eq_none c)
  rw [validate_unfold, validate_unfold, f1, f2, f3, f7]
  simp only [hp]

/-- C18: `applyDefaults` leaves the name, image, framework, description,
registry secret, builder, source path, cname, raw environment, buildpacks,
timeout, wait flag and side document as they were; the process list keeps
its presence, length and order, each process keeps its name, command
sequence and environment, and a process with a unit count is unchanged. -/
theorem C18_applyDefaults_frame (c : ChangeSet) :
    (c.applyDefaults.appName = c.appName ∧
      c.applyDefaults.image = c.image ∧
      c.applyDefaults.framework = c.framework ∧
      c.applyDefaults.description = c.description ∧
      c.applyDefaults.dockerRegistrySecret = c.dockerRegistrySecret ∧
      c.applyDefaults.builder = c.builder ∧
      c.applyDefaults.sourcePath = c.sourcePath ∧
      c.applyDefaults.cname = c.cname ∧
      c.applyDefaults.envs = c.envs ∧
      c.applyDefaults.buildPacks = c.buildPacks ∧
      c.applyDefaults.timeout = c.timeout ∧
      c.applyDefaults.wait = c.wait ∧
      c.applyDefaults.ketchYamlData = c.ketchYamlData) ∧
    (c.processes = none → c.applyDefaults.processes = none) ∧
    (∀ ps, c.processes = some ps →
      ∃ ps', c.applyDefaults.processes = some ps' ∧ ps'.length = ps.length ∧
        ∀ (i : Nat) (hi : i < ps.length) (hi' : i < ps'.length),
          ps'[i].Name = ps[i].Name ∧ ps'[i].Cmd = ps[i].Cmd ∧ ps'[i].Env = ps[i].Env ∧
          (ps[i].Units ≠ none → ps'[i] = ps[i])) := by
  refine ⟨applyDefaults_frame c, (applyDefaults_processes_eq_none c).2, ?_⟩
  intro ps hps
  refine ⟨ps.map (fun p =>
    { p with Units := some (p.Units.getD (c.appUnit.getD defaultAppUnit)) }), ?_, by simp, ?_⟩
  · rw [applyDefaults_eq c, hps]
    rfl
  · intro i hi hi'
    rw [List.getElem_map]
    refine ⟨rfl, rfl, rfl, ?_⟩
    intro hu
    generalize ps[i] = q at hu
    obtain ⟨qn, qc, qu, qe⟩ := q
    cases qu with
    | none => exact absurd rfl hu
    | some u => rfl

/-- Witness for C18: with app-unit count 2, the process with 1 unit is
unchanged and the process with no unit count keeps its name. -/
theorem C18_applyDefaults_frame_witness :
    ∃ ps', ({ bareChangeSet with
              appUnit := some 2
              processes := some [bareSpec "web" (some 1), bareSpec "worker" none] }
            : ChangeSet).applyDefaults.processes = some ps' ∧
      ps'.length = 2 ∧
      ∀ (hi' : 0 < ps'.length) (hj' : 1 < ps'.length),
        ps'[0] = bareSpec "web" (some 1) ∧ ps'[1].Name = "worker" := by
  obtain ⟨ps', h1, h2, h3⟩ :=
    (C18_applyDefaults_frame
      { bareChangeSet with
        appUnit := some 2
        processes := some [bareSpec "web" (some 1), bareSpec "worker" none] }).2.2
      [bareSpec "web" (some 1), bareSpec "worker" none] rfl
  refine ⟨ps', h1, h2, ?_⟩
  intro hi' hj'
  exact ⟨(h3 0 (by decide) hi').2.2.2 (by decide), (h3 1 (by decide) hj').1⟩

/-! ## Classification of errors -/

/-- Wrapping does not change the kind at the end of the causal chain. -/
theorem terminalKind_wrapAll (contexts : List String) (err : ClassifiedError) :
    (wrapAll contexts err).terminalKind = err.terminalKind := by
  induction contexts with
  | nil => rfl
  | cons ctx rest ih => simpa [wrapAll, ClassifiedError.terminalKind] using ih

/-- Wrapping does not change the walk of `isValid`. -/
theorem valid_wrapAll (contexts : List String) (err : ClassifiedError) :
    (wrapAll contexts err).valid = err.valid := by
  induction contexts with
  | nil => rfl
  | cons ctx rest ih => simpa [wrapAll, ClassifiedError.valid] using ih

/-- C15: for every message and every stack of added contexts (of any depth,
zero included), `isMissing` is true of the wrapped Missing error and
`isValid` is false of the wrapped InvalidValue and InvalidUsage errors; on
every error each predicate answers the same wrapped as raw. -/
theorem C15_classification_survives_wrapping (m : String) (contexts : List String) :
    isMissing (some (wrapAll contexts (newMissingError m))) = true ∧
    isValid (some (wrapAll contexts (newInvalidValueError m))) = false ∧
    isValid (some (wrapAll contexts (newInvalidUsageError m))) = false ∧
    (∀ err : ClassifiedError,
      isMissing (some (wrapAll contexts err)) = isMissing (some err) ∧
      isValid (some (wrapAll contexts err)) = isValid (some err)) := by
  refine ⟨?_, ?_, ?_, ?_⟩
  · simp [isMissing, terminalKind_wrapAll, newMissingError, ClassifiedError.terminalKind]
  · simp [isValid, valid_wrapAll, newInvalidValueError, ClassifiedError.valid]
  · simp [isValid, valid_wrapAll, newInvalidUsageError, ClassifiedError.valid]
  · intro err
    simp [isMissing, isValid, terminalKind_wrapAll, valid_wrapAll]

/-! ## The number of tokens of a command -/

/-- A split has one piece more than the sequence has separators. -/
theorem splitChars_length (sep : Char) (l : List Char) :
    (splitChars sep l).length = l.count sep + 1 := by
  induction l with
  | nil => simp [splitChars]
  | cons c cs ih =>
    rw [splitChars, List.count_cons]
    by_cases h : c = sep
    · simp [h, ih]
    · simp only [h, if_false, beq_iff_eq, add_zero]
      cases hs : splitChars sep cs with
      | nil => exact absurd hs (splitChars_ne_nil sep cs)
      | cons t ts =>
        rw [hs] at ih
        simpa using ih

/-- `strings.Split` yields one token more than the string has separators. -/
theorem stringsSplit_length (s : String) (sep : Char) :
    (stringsSplit s sep).length = s.data.count sep + 1 := by
  simp [stringsSplit, splitChars_length]

/-- C19: when the loader returns a change set for a manifest that declares
processes, the command sequence of each process spec is non-empty, its
tokens joined with single spaces give back the declared `cmd` (the empty
string included), and it has one token more than `cmd` has space
characters. -/
theorem C19_cmd_join_and_count
    (rf : String → Except GoError String) (um : String → Except GoError Application)
    (me : List String → Except GoError (List Env)) (o : Options) (fn b : String)
    (app : Application) (c : ChangeSet) (e : Option GoError) (ps : List Process)
    (hb : rf fn = Except.ok b) (happ : um b = Except.ok app)
    (hps : app.Processes = some ps) (hne : ps ≠ [])
    (h : GetChangeSetFromYaml rf um me o fn = Result.ret (some c) e) :
    ∃ specs, c.processes = some specs ∧ specs.length = ps.length ∧
      ∀ (i : Nat) (hi : i < ps.length) (hi' : i < specs.length),
        specs[i].Cmd ≠ [] ∧
        stringsJoin specs[i].Cmd ' ' = ps[i].Cmd ∧
        specs[i].Cmd.length = ps[i].Cmd.data.count ' ' + 1 := by
  obtain ⟨envs, -, hc⟩ := loaded_processes hb happ hps hne h
  refine ⟨_, hc, by simp, ?_⟩
  intro i hi hi'
  rw [List.getElem_map]
  exact ⟨stringsSplit_ne_nil _ _, stringsJoin_stringsSplit _ _, stringsSplit_length _ _⟩

/-- Witness for C19: the empty command gives the one empty token, and the
command with four spaces gives five tokens. -/
theorem C19_cmd_join_and_count_witness :
    ∃ c e specs, loadSample dotOptions sampleEmptyCmd = Result.ret (some c) e ∧
      c.processes = some specs ∧
      specs.map ProcessSpec.Cmd = [[""], ["", "a", "", "b", ""]] ∧
      ∀ (i : Nat) (hi' : i < specs.length), specs[i].Cmd ≠ [] := by
  obtain ⟨specs, h1, h2, h3⟩ :=
    C19_cmd_join_and_count (readFileConst "") (unmarshalConst sampleEmptyCmd)
      makeEnvironmentsNone dotOptions "application.yaml" "" sampleEmptyCmd _ _
      [plainProcess "web" "" none, plainProcess "worker" " a  b " none]
      rfl rfl rfl (by simp)
      (rfl : loadSample dotOptions sampleEmptyCmd = Result.ret (some _) _)
  refine ⟨_, _, specs, rfl, h1, ?_, ?_⟩
  · have hd : (buildChangeSet dotOptions sampleEmptyCmd "test"
        (mapProcesses [] sampleEmptyCmd).1
        (mapProcesses [] sampleEmptyCmd).2).applyDefaults.processes
        = some [{ Name := "web", Cmd := [""], Units := some 1, Env := [] },
                { Name := "worker", Cmd := ["", "a", "", "b", ""], Units := some 1,
                  Env := [] }] := by
      decide
    rw [hd] at h1
    simp only [Option.some.injEq] at h1
    rw [← h1]
    decide
  · intro i hi'
    exact (h3 i (h2 ▸ hi') hi').1

/-! ## Processes that share a name -/

/-- C20: when the loader returns a change set for a manifest that declares
processes, the port mapping has at most one entry per name; its entry for a
name holds the ports of the last declared process of that name with a
non-empty ports list (a process with no port neither removes nor replaces
it); the process list still has one spec per declared process and the hook
sequences the non-empty hooks of all of them; and the mapping has at most as
many entries as there are declared processes with a non-empty ports list. -/
theorem C20_shared_process_names
    (rf : String → Except GoError String) (um : String → Except GoError Application)
    (me : List String → Except GoError (List Env)) (o : Options) (fn b : String)
    (app : Application) (c : ChangeSet) (e : Option GoError) (ps : List Process)
    (hb : rf fn = Except.ok b) (happ : um b = Except.ok app)
    (hps : app.Processes = some ps) (hne : ps ≠ [])
    (h : GetChangeSetFromYaml rf um me o fn = Result.ret (some c) e) :
    ∃ d k hooks specs, c.ketchYamlData = some d ∧ d.Kubernetes = some k ∧
      d.Hooks = some hooks ∧ c.processes = some specs ∧
      (k.Processes.map Prod.fst).Nodup ∧
      (∀ n, k.Processes.get? n =
        (ps.reverse.find? (fun p => decide (p.Name = n ∧ p.Ports ≠ []))).map
          (fun p => { Ports := p.Ports.map (fun port =>
            { Protocol := port.Protocol, Port := port.Port,
              TargetPort := port.TargetPort }) })) ∧
      specs.map ProcessSpec.Name = ps.map Process.Name ∧
      hooks.Restart.Before =
        (ps.map (fun q => q.Hooks.Restart.Before)).filter (fun s => decide (s ≠ "")) ∧
      hooks.Restart.After =
        (ps.map (fun q => q.Hooks.Restart.After)).filter (fun s => decide (s ≠ "")) ∧
      k.Processes.length ≤ (ps.filter (fun p => decide (p.Ports ≠ []))).length := by
  obtain ⟨envs, -, hk⟩ := loaded_ketchYamlData hb happ hps hne h
  obtain ⟨envs', -, hc⟩ := loaded_processes hb happ hps hne h
  refine ⟨_, _, _, _, hk, rfl, rfl, hc, ?_, ?_, ?_, rfl, rfl, ?_⟩
  · exact foldl_processStep_config_nodup envs ps _ (by simp [GoMap.empty])
  · intro n
    exact processLoop_config_get? envs ps n
  · simp [List.map_map, Function.comp_def]
  · have := foldl_processStep_config_length envs ps
      { processes := [], beforeHooks := [], afterHooks := [],
        ketchYamlProcessConfig := GoMap.empty }
    simpa [processLoop, GoMap.empty] using this

/-- Witness for C20: three processes named "web", with ports 8888, with ports
9999 and with no port: the mapping has the one entry "web" with port 9999,
the process list has three specs and the `before` sequence three hooks. -/
theorem C20_shared_process_names_witness :
    ∃ c e d k hooks specs, loadSample dotOptions sampleSharedName = Result.ret (some c) e ∧
      c.ketchYamlData = some d ∧ d.Kubernetes = some k ∧ d.Hooks = some hooks ∧
      c.processes = some specs ∧
      k.Processes.get? "web"
        = some { Ports := [{ Protocol := "UDP", Port := 9999, TargetPort := 7777 }] } ∧
      k.Processes.length ≤ 2 ∧
      specs.map ProcessSpec.Name = ["web", "web", "web"] ∧
      hooks.Restart.Before = ["one", "two", "three"] := by
  obtain ⟨d, k, hooks, specs, h1, h2, h3, h4, _, h6, h7, h8, _, h10⟩ :=
    C20_shared_process_names (readFileConst "") (unmarshalConst sampleSharedName)
      makeEnvironmentsNone dotOptions "application.yaml" "" sampleSharedName _ _
      [portProcess "web" [{ Protocol := "TCP", Port := 8888, TargetPort := 6666 }] "one",
       portProcess "web" [{ Protocol := "UDP", Port := 9999, TargetPort := 7777 }] "two",
       portProcess "web" [] "three"]
      rfl rfl rfl (by simp)
      (rfl : loadSample dotOptions sampleSharedName = Result.ret (some _) _)
  refine ⟨_, _, d, k, hooks, specs, rfl, h1, h2, h3, h4, ?_, ?_, ?_, ?_⟩
  · rw [h6 "web"]
    decide
  · exact h10
  · rw [h7]
    decide
  · rw [h8]
    decide

end Deploy
